import Mathlib

set_option maxRecDepth 8192

/- Shallow embedding of src/src/ConfigFactory.cpp (epanet-rtx configuration
   factory): the configuration-tree data model, the construction pipeline
   (point records, clocks, time series, model, simulation defaults, zones,
   save options, element bindings) and the deferred link resolver.

   Machine conventions:
   * libconfig `Setting` groups are embedded as records whose fields are
     `Option`-valued (`none` = the field is absent from the document);
   * `Setting::operator[]` on a missing member throws
     `SettingNotFoundException`; this is modelled by the `Except` layer of
     the `M` monad (uncaught in the source, so it aborts the load);
   * `Setting::lookupValue` returns `false` on a missing or wrongly typed
     field and never throws; this is modelled by matching on the `Option`;
   * C++ `double` fields only ever hold configuration literals here, so they
     are modelled as rationals;
   * `boost::shared_ptr<T>` is modelled as `Option Nat`: a heap identifier,
     or `none` for the null pointer.  The heaps live in `FState`;
   * `std::map` is modelled as an association list with insert-or-replace
     update (`mapInsert`); see the comment there about iteration order. -/

namespace RTX

/-- A numeric scalar of the configuration tree.  libconfig distinguishes
int-typed from float-typed settings: `lookupValue` into a `double` fails on an
int-typed setting, which is what `getConfigDouble`'s integer fallback handles.
Float literals are modelled as rationals. -/
inductive NumVal where
  | i : Int → NumVal
  | f : ℚ → NumVal
deriving Repr, DecidableEq

/-- Units-of-measure values.  `Units::unitOfType` is external; it is kept
uninterpreted, with `RTX_DIMENSIONLESS` as the distinguished default. -/
inductive RtxUnits where
  | dimensionless : RtxUnits
  | unitOfType : String → RtxUnits
deriving Repr, DecidableEq

/-- ValidRangeTimeSeries filter modes. -/
inductive VRMode where
  | drop | saturate
deriving Repr, DecidableEq

/-- The time-series node kinds registered in `_timeSeriesPointerMap`. -/
inductive TSKind where
  | timeSeries | movingAverage | aggregator | resampler | firstDerivative
  | offset | threshold | curveFunction | multiplier | validRange | constant
deriving Repr, DecidableEq

/-- Point-record kinds registered in `_pointRecordPointerMap`. -/
inductive PRKind where
  | csv | odbc | mysql
deriving Repr, DecidableEq

/-- Diagnostics written to cerr/cout by the factory.  Each constructor stands
for one diagnostic event (the two consecutive cerr lines of the
"cannot locate specified source" report form a single event carrying both
names). -/
inductive Diag where
  | couldNotLoadPointRecord
  | pointRecordTypeNotSupported (t : String)
  | csvPointRecordCheckConfig
  | odbcRecordCheckConfig
  | connectorTypeNotSpecified
  | couldNotCreateTimeSeries (name : String)
  | timeSeriesTypeNotRecognized (t : String)
  | cannotLocateTimeSeries (name : String)
  | cannotLocateSourceTimeSeries (source : String) (dependent : String)
  | couldNotResolveMode (mode : String)
  | couldNotRetrievePointRecord (name : String)
  | saveStatesNotAList
  | noStateRecordWarning
  | skippingElementMissingParameter (modelID : String)
  | couldNotFindParameterType (t : String)
  | couldNotFindTimeSeriesForElement (name : String)
deriving Repr, DecidableEq

/-- Uncaught libconfig exceptions.  Only file-I/O and parse errors are caught
by `loadConfigFile` (before any section is processed); a
`SettingNotFoundException` raised while reading a section propagates out of
the factory and aborts the load. -/
inductive CfgErr where
  | settingNotFound (path : String)
deriving Repr, DecidableEq

/-- The `querySyntax` sub-group of a SCADA/ODBC record declaration (field
named `querySyntax` in the source).  Its five columns are read with
`operator[]`, i.e. each is required once the group is present. -/
structure QueryCols where
  table : Option String := none
  dateColumn : Option String := none
  tagColumn : Option String := none
  valueColumn : Option String := none
  qualityColumn : Option String := none
deriving Repr, DecidableEq

/-- One entry of the `records` list. `configPath` is the field piggy-backed
onto the setting by `createPointRecords` before dispatching. -/
structure RecordSetting where
  name : Option String := none
  type : Option String := none
  path : Option String := none
  readonly : Option Bool := none
  connection : Option String := none
  querySpec : Option QueryCols := none
  connectorType : Option String := none
  configPath : Option String := none
deriving Repr, DecidableEq

/-- One entry of the `clocks` list. -/
structure ClockSetting where
  name : Option String := none
  period : Option Int := none
deriving Repr, DecidableEq

/-- One entry of an aggregator's `sources` list: a required `source` name and
an optional numeric `multiplier`. -/
structure AggSource where
  source : Option String := none
  multiplier : Option NumVal := none
deriving Repr, DecidableEq

/-- One entry of a curve function's `function` list. -/
structure CurvePoint where
  x : Option NumVal := none
  y : Option NumVal := none
deriving Repr, DecidableEq

/-- One entry of the `timeseries` list, with the generic fields and the union
of all kind-specific fields (absent fields are `none`).  The `multiplier`
field here is the basis-series *name* of a Multiplier node (a string read with
`lookupValue`); aggregator weights live inside `sources`. -/
structure TSSetting where
  name : Option String := none
  type : Option String := none
  units : Option String := none
  clock : Option String := none
  pointRecord : Option String := none
  source : Option String := none
  window : Option Int := none
  sources : Option (List AggSource) := none
  multiplier : Option String := none
  offsetValue : Option NumVal := none
  thresholdValue : Option NumVal := none
  value : Option NumVal := none
  inputUnits : Option String := none
  function : Option (List CurvePoint) := none
  rangeMin : Option NumVal := none
  rangeMax : Option NumVal := none
  mode : Option String := none
deriving Repr, DecidableEq

/-- The `model` group. -/
structure ModelSetting where
  type : Option String := none
  file : Option String := none
deriving Repr, DecidableEq

/-- The `simulation.time` group. -/
structure SimTimeSetting where
  hydraulic : Option Int := none
  quality : Option Int := none
deriving Repr, DecidableEq

/-- The `simulation` group. -/
structure SimulationSetting where
  time : Option SimTimeSetting := none
deriving Repr, DecidableEq

/-- The `zones` group. -/
structure ZoneSetting where
  autoDetect : Option Bool := none
  detectClosedLinks : Option Bool := none
deriving Repr, DecidableEq

/-- The `save_states` member: `createSaveOptions` checks `isList()` before
iterating, so a present-but-not-a-list value is distinguished. -/
inductive SaveStates where
  | list (states : List String)
  | nonList
deriving Repr, DecidableEq

/-- The `save` group. -/
structure SaveSetting where
  staterecord : Option String := none
  saveStates : Option SaveStates := none
deriving Repr, DecidableEq

/-- One entry of the `configuration.elements` list. -/
structure ElemSetting where
  modelId : Option String := none
  parameter : Option String := none
  timeseries : Option String := none
deriving Repr, DecidableEq

/-- A parsed configuration document.  In the source the sections hang off the
`configuration` group of the libconfig tree; an absent group means every
section is absent, so the group itself is flattened away.  `version` is a
top-level setting read with `Config::lookup` (which throws when absent). -/
structure ConfigDoc where
  version : Option String := none
  records : Option (List RecordSetting) := none
  clocks : Option (List ClockSetting) := none
  timeseries : Option (List TSSetting) := none
  model : Option ModelSetting := none
  simulation : Option SimulationSetting := none
  zones : Option ZoneSetting := none
  save : Option SaveSetting := none
  elements : Option (List ElemSetting) := none
deriving Repr, DecidableEq

/-- A constructed clock: `new Clock(period)`. -/
structure ClockObj where
  period : Int
deriving Repr, DecidableEq

/-- A constructed point record.  `path` for CSV records; `connectionString`
for ODBC/MySQL records.  The CSV constructor's defaults (`readOnly = false`,
no path) stand for the external `CsvPointRecord` constructor. -/
structure PRObj where
  kind : PRKind
  readOnly : Bool := false
  path : Option String := none
  connectionString : Option String := none
deriving Repr, DecidableEq

/-- Modelled from the spec: the network-model element classes (Junction,
Tank, Reservoir, Pipe, Pump, Valve) are external collaborators; §3 describes
elements as capability-tagged variants. -/
inductive ElemKind where
  | junction | tank | reservoir | pipe | pump | valve
deriving Repr, DecidableEq

/-- Modelled from the spec: a live network-model element (§3, §4.5).
`bindings` records the parameter bindings applied by the element
configuration functions; `stateRecords` records the persistent stores
attached by the `measured` save policy (§8). -/
structure ElementObj where
  name : String
  kind : ElemKind
  bindings : List (String × Option Nat) := []
  stateRecords : List (String × Option Nat) := []
deriving Repr, DecidableEq

/-- Modelled from the spec: the network-model collaborator (§6) exposing
`loadModelFromFile`, an element list, step-size setters and default-storage
setters.  Only the state the factory writes through its interface is kept. -/
structure ModelObj where
  kind : String
  sourceFile : String
  hydraulicTimeStep : Option Int := none
  qualityTimeStep : Option Int := none
  storage : Option (Option Nat) := none
  zoneRecord : Option (Option Nat) := none
  demandZonesDetectClosed : Option Bool := none
  elements : List Nat := []
deriving Repr, DecidableEq

/-- A constructed time-series node.  The common attributes are those set by
`setGenericTimeSeriesProperties`; the kind-specific attributes are the union
over the variants.  A field value `some x` means the corresponding setter was
called with `x`; reference-valued setters receive a possibly-null shared
pointer (`Option Nat`).  The external class constructors' defaults are the
record defaults. -/
structure TSObj where
  kind : TSKind
  name : String := ""
  units : RtxUnits := RtxUnits.dimensionless
  clock : Option (Option Nat) := none
  record : Option (Option Nat) := none
  source : Option (Option Nat) := none
  windowSize : Option Int := none
  offsetValue : Option ℚ := none
  thresholdValue : Option ℚ := none
  constantValue : Option ℚ := none
  multiplierBasis : Option (Option Nat) := none
  aggSources : List (Option Nat × ℚ) := []
  inputUnits : Option RtxUnits := none
  curve : List (ℚ × ℚ) := []
  rangeMin : ℚ := 0
  rangeMax : ℚ := 0
  mode : Option VRMode := none
deriving Repr, DecidableEq

/-- Association-list lookup (`std::map::find`). -/
def lookupKey {κ α : Type} [DecidableEq κ] (k : κ) : List (κ × α) → Option α
  | [] => none
  | (k', v) :: rest => if k' = k then some v else lookupKey k rest

/-- Insert-or-replace (`std::map::operator[] = v`): replace the binding of an
existing key in place, or append a new key.  (`std::map` iterates in key
order; this list keeps insertion order instead.  No claim proved below
depends on the iteration order of the maps, only on their key/value
contents, so the simpler representation is used.) -/
def mapInsert {κ α : Type} [DecidableEq κ] (k : κ) (v : α) :
    List (κ × α) → List (κ × α)
  | [] => [(k, v)]
  | (k', v') :: rest =>
    if k' = k then (k, v) :: rest else (k', v') :: mapInsert k v rest

/-- Reading `std::map<Key, shared_ptr<T>>::operator[]`: a missing key is
value-initialized, i.e. a null pointer is inserted under it and returned. -/
def mapSubscript {κ : Type} [DecidableEq κ] (k : κ)
    (m : List (κ × Option Nat)) : Option Nat × List (κ × Option Nat) :=
  match lookupKey k m with
  | some v => (v, m)
  | none => (none, mapInsert k none m)

/-- In-place update of a heap cell (mutation through a live pointer). -/
def heapModify {α : Type} (i : Nat) (f : α → α)
    (h : List (Nat × α)) : List (Nat × α) :=
  match lookupKey i h with
  | some o => mapInsert i (f o) h
  | none => h

/-- `boost::filesystem::path::parent_path`: the path with its last component
removed ("/" when only the root remains, "" when there is no separator). -/
def parentPath (p : String) : String :=
  let cs := p.data
  if cs.contains '/' then
    let par := ((cs.reverse.dropWhile (fun c => c ≠ '/')).drop 1).reverse
    if par = [] then "/" else String.mk par
  else ""

/-- `boost::filesystem` `operator/=`: append a component behind a separator
(no separator when the left side is empty or already ends in one). -/
def pathJoin (a b : String) : String :=
  if a = "" then b
  else if a.data.getLast? = some '/' then a ++ b
  else a ++ "/" ++ b

/-- RTX_STRINGS_ARE_EQUAL (external rtx macro header): std::string equality. -/
def rtxStringsAreEqual (a b : String) : Bool := a == b

/-- `ConfigFactory::getConfigDouble`: `lookupValue` into a double (succeeds
only on a float-typed field); on failure fall back to reading the field as an
int and casting.  Every call site guards with `exists`, so the absent case
(where the C++ copies an uninitialized int) is modelled as the initial 0. -/
def getConfigDouble (value : Option NumVal) : ℚ :=
  match value with
  | some (NumVal.f q) => q
  | some (NumVal.i n) => (n : ℚ)
  | none => 0

/-- The mutable state of a `ConfigFactory` object, together with the heaps
standing for the C++ free store (one shared id counter models the allocator;
heap cells are never deallocated during a load). -/
structure FState where
  configPath : String := ""
  configuration : ConfigDoc := {}
  tsHeap : List (Nat × TSObj) := []
  clockHeap : List (Nat × ClockObj) := []
  prHeap : List (Nat × PRObj) := []
  elemHeap : List (Nat × ElementObj) := []
  nextId : Nat := 0
  timeSeriesList : List (String × Option Nat) := []
  pointRecordList : List (String × Option Nat) := []
  clockList : List (String × Option Nat) := []
  timeSeriesSourceList : List (String × String) := []
  multiplierBasisList : List (Nat × String) := []
  aggregationSourceList : List (String × List (String × ℚ)) := []
  defaultRecord : Option Nat := none
  doesHaveStateRecord : Bool := false
  model : Option ModelObj := none
  diags : List Diag := []
deriving Repr, DecidableEq

/-- The freshly constructed factory (`ConfigFactory::ConfigFactory`): all
tables empty, `_doesHaveStateRecord = false`. -/
def FState.init : FState := {}

instance {ε α : Type} [DecidableEq ε] [DecidableEq α] :
    DecidableEq (Except ε α) := fun x y =>
  match x, y with
  | Except.ok a, Except.ok b =>
      if h : a = b then isTrue (h ▸ rfl) else isFalse (fun hh => h (by injection hh))
  | Except.error e, Except.error f =>
      if h : e = f then isTrue (h ▸ rfl) else isFalse (fun hh => h (by injection hh))
  | Except.ok _, Except.error _ => isFalse (fun hh => Except.noConfusion hh)
  | Except.error _, Except.ok _ => isFalse (fun hh => Except.noConfusion hh)

/-- The execution monad: explicit state passing plus an uncaught-exception
channel.  An exception leaves the state already mutated (C++ side effects are
not rolled back). -/
def M (α : Type) : Type := FState → Except CfgErr α × FState

def M.pure {α : Type} (a : α) : M α := fun st => (Except.ok a, st)

def M.bind {α β : Type} (x : M α) (f : α → M β) : M β := fun st =>
  match x st with
  | (Except.ok a, st') => f a st'
  | (Except.error e, st') => (Except.error e, st')

instance : Monad M where
  pure := M.pure
  bind := M.bind

def M.get : M FState := fun st => (Except.ok st, st)

def M.set (st : FState) : M Unit := fun _ => (Except.ok (), st)

def M.modifyF (f : FState → FState) : M Unit := fun st => (Except.ok (), f st)

def M.throw {α : Type} (e : CfgErr) : M α := fun st => (Except.error e, st)

/-- `Setting::operator[]` on a group member / `Config::lookup`: return the
value or throw `SettingNotFoundException`. -/
def M.req {α : Type} (v : Option α) (path : String) : M α :=
  match v with
  | some a => M.pure a
  | none => M.throw (CfgErr.settingNotFound path)

/-- Write one diagnostic line group to the error/output stream. -/
def M.emit (d : Diag) : M Unit :=
  M.modifyF fun st => { st with diags := st.diags ++ [d] }

/-- Allocate a time-series object on the heap (`new ...TimeSeries()`). -/
def M.allocTS (o : TSObj) : M Nat := fun st =>
  (Except.ok st.nextId,
   { st with nextId := st.nextId + 1,
             tsHeap := mapInsert st.nextId o st.tsHeap })

/-- Allocate a clock (`new Clock(period)`). -/
def M.allocClock (o : ClockObj) : M Nat := fun st =>
  (Except.ok st.nextId,
   { st with nextId := st.nextId + 1,
             clockHeap := mapInsert st.nextId o st.clockHeap })

/-- Allocate a point record (`new CsvPointRecord()` etc.). -/
def M.allocPR (o : PRObj) : M Nat := fun st =>
  (Except.ok st.nextId,
   { st with nextId := st.nextId + 1,
             prHeap := mapInsert st.nextId o st.prHeap })

/-- Allocate a model element (owned by the external model object). -/
def M.allocElem (o : ElementObj) : M Nat := fun st =>
  (Except.ok st.nextId,
   { st with nextId := st.nextId + 1,
             elemHeap := mapInsert st.nextId o st.elemHeap })

/-- Mutate a time-series object through a live (non-null) pointer. -/
def M.modifyTS (i : Nat) (f : TSObj → TSObj) : M Unit :=
  M.modifyF fun st => { st with tsHeap := heapModify i f st.tsHeap }

/-- Call a mutator through a possibly-null shared pointer.  Dereferencing a
null pointer is undefined behaviour in the source; at every call site of this
helper the pointer has been established non-null, so the null branch is
unreachable and modelled as a no-op. -/
def M.callOn (p : Option Nat) (f : TSObj → TSObj) : M Unit :=
  match p with
  | some i => M.modifyTS i f
  | none => M.pure ()

/-- `timeSeries->name()`: read the name through a live pointer (the id is
always a valid heap cell at the call sites). -/
def M.tsObjName (i : Nat) : M String := fun st =>
  (Except.ok (((lookupKey i st.tsHeap).map TSObj.name).getD ""), st)

namespace ConfigFactory

/-- `PointRecordFactory::createCsvPointRecord`: allocate a `CsvPointRecord`;
when `name`, `path` and the piggy-backed `configPath` are all present, set the
read-only flag and the storage path `dirname(configPath) / path`; otherwise
complain but still return the (default-initialized) record. -/
def createCsvPointRecord (setting : RecordSetting) : M (Option Nat) := do
  let csv ← M.allocPR { kind := PRKind.csv }
  match setting.name, setting.path, setting.configPath with
  | some _name, some csvDirPath, some configPath => do
      let readOnly : Bool :=
        match setting.readonly with
        | some b => b
        | none => false
      M.modifyF fun st =>
        { st with prHeap := heapModify csv (fun r => { r with readOnly := readOnly }) st.prHeap }
      let newPath := pathJoin (parentPath configPath) csvDirPath
      M.modifyF fun st =>
        { st with prHeap := heapModify csv (fun r => { r with path := some newPath }) st.prHeap }
  | _, _, _ => M.emit Diag.csvPointRecordCheckConfig
  M.pure (some csv)

/-- `PointRecordFactory::createOdbcPointRecord`: complain when `connection`
or `name` is missing (the connection string then stays empty); the
`querySyntax` sub-group's five columns are read with `operator[]` (throwing
when absent) and handed to the external `setTableColumnNames`; connector-type
recognition (`OdbcPointRecord::typeForName`) is an external call and only its
"not specified" branch is observable here. -/
def createOdbcPointRecord (setting : RecordSetting) : M (Option Nat) := do
  let r ← M.allocPR { kind := PRKind.odbc }
  let initString : String :=
    match setting.connection with
    | some c => c
    | none => ""
  match setting.connection, setting.name with
  | some _, some _ => M.pure ()
  | _, _ => M.emit Diag.odbcRecordCheckConfig
  match setting.querySpec with
  | some cols => do
      let _table ← M.req cols.table "Table"
      let _dateCol ← M.req cols.dateColumn "DateColumn"
      let _tagCol ← M.req cols.tagColumn "TagColumn"
      let _valueCol ← M.req cols.valueColumn "ValueColumn"
      let _qualCol ← M.req cols.qualityColumn "QualityColumn"
      M.pure ()
  | none => M.pure ()
  match setting.connectorType with
  | some _t => M.pure ()
  | none => M.emit Diag.connectorTypeNotSpecified
  M.modifyF fun st =>
    { st with prHeap := heapModify r (fun o => { o with connectionString := some initString }) st.prHeap }
  M.pure (some r)

/-- `PointRecordFactory::createMySqlPointRecord`: `name` and `connection` are
read with `operator[]` (throwing when absent). -/
def createMySqlPointRecord (setting : RecordSetting) : M (Option Nat) := do
  let _name ← M.req setting.name "name"
  let record ← M.allocPR { kind := PRKind.mysql }
  let initString ← M.req setting.connection "connection"
  M.modifyF fun st =>
    { st with prHeap := heapModify record (fun o => { o with connectionString := some initString }) st.prHeap }
  M.pure (some record)

/-- `ConfigFactory::createPointRecordOfType`: look up the `type`
discriminator in `_pointRecordPointerMap` ("CSV", "SCADA", "MySQL"); an
absent or unregistered type yields a diagnostic and a null pointer. -/
def createPointRecordOfType (setting : RecordSetting) : M (Option Nat) := do
  match setting.type with
  | some t =>
      if t = "CSV" then createCsvPointRecord setting
      else if t = "SCADA" then createOdbcPointRecord setting
      else if t = "MySQL" then createMySqlPointRecord setting
      else do
        M.emit (Diag.pointRecordTypeNotSupported t)
        M.pure none
  | none => do
      M.emit (Diag.pointRecordTypeNotSupported "")
      M.pure none

/-- Loop body of `ConfigFactory::createPointRecords`, carrying the loop
index used for the "Record i" fallback name.  The factory's `_configPath` is
piggy-backed onto the setting before dispatch; a null result is reported, a
non-null one is stored (last write wins). -/
def createPointRecordsFrom (iRecord : Nat) : List RecordSetting → M Unit
  | [] => M.pure ()
  | record :: rest => do
      let recordName : String :=
        match record.name with
        | some n => n
        | none => "Record " ++ toString iRecord
      let st ← M.get
      let pointRecord ← createPointRecordOfType { record with configPath := some st.configPath }
      match pointRecord with
      | some _ =>
          M.modifyF fun s =>
            { s with pointRecordList := mapInsert recordName pointRecord s.pointRecordList }
      | none => M.emit Diag.couldNotLoadPointRecord
      createPointRecordsFrom (iRecord + 1) rest

/-- `ConfigFactory::createPointRecords`. -/
def createPointRecords (records : List RecordSetting) : M Unit :=
  createPointRecordsFrom 0 records

/-- `ConfigFactory::createClocks`: `name` and `period` are read with
`operator[]` (throwing when absent); each clock is stored under its name
(last write wins). -/
def createClocks : List ClockSetting → M Unit
  | [] => M.pure ()
  | clock :: rest => do
      let clockName ← M.req clock.name "name"
      let period ← M.req clock.period "period"
      let aClock ← M.allocClock { period := period }
      M.modifyF fun st => { st with clockList := mapInsert clockName (some aClock) st.clockList }
      createClocks rest

/-- `ConfigFactory::setGenericTimeSeriesProperties`: required `name`;
optional `units` (default dimensionless); optional `clock` and `pointRecord`
resolved *immediately* through `operator[]` on the already-built tables (a
missing name silently inserts and attaches a null pointer); an optional
`source` is *not* resolved but recorded in `_timeSeriesSourceList` keyed by
this node's name. -/
def setGenericTimeSeriesProperties (timeSeries : Nat) (setting : TSSetting) : M Unit := do
  let myName ← M.req setting.name "name"
  M.modifyTS timeSeries fun o => { o with name := myName }
  let theUnits : RtxUnits :=
    match setting.units with
    | some unitName => RtxUnits.unitOfType unitName
    | none => RtxUnits.dimensionless
  M.modifyTS timeSeries fun o => { o with units := theUnits }
  match setting.clock with
  | some clockName => do
      let st ← M.get
      let sub := mapSubscript clockName st.clockList
      M.set { st with clockList := sub.2 }
      M.modifyTS timeSeries fun o => { o with clock := some sub.1 }
  | none => M.pure ()
  match setting.pointRecord with
  | some pointRecordName => do
      let st ← M.get
      let sub := mapSubscript pointRecordName st.pointRecordList
      M.set { st with pointRecordList := sub.2 }
      M.modifyTS timeSeries fun o => { o with record := some sub.1 }
  | none => M.pure ()
  match setting.source with
  | some sourceName =>
      M.modifyF fun st =>
        { st with timeSeriesSourceList := mapInsert myName sourceName st.timeSeriesSourceList }
  | none => M.pure ()

/-- `ConfigFactory::createTimeSeries`. -/
def createTimeSeries (setting : TSSetting) : M (Option Nat) := do
  let timeSeries ← M.allocTS { kind := TSKind.timeSeries }
  setGenericTimeSeriesProperties timeSeries setting
  M.pure (some timeSeries)

/-- The source-list parsing loop inside `ConfigFactory::createAggregator`:
each entry's `source` is read with `operator[]` (throwing when absent) and
its weight defaults to 1 when no `multiplier` field is present. -/
def parseAggSourceList : List AggSource → M (List (String × ℚ))
  | [] => M.pure []
  | thisSource :: rest => do
      let sourceName ← M.req thisSource.source "source"
      let multiplier : ℚ :=
        match thisSource.multiplier with
        | some v => getConfigDouble (some v)
        | none => 1
      let tail ← parseAggSourceList rest
      M.pure ((sourceName, multiplier) :: tail)

/-- `ConfigFactory::createAggregator`: generic properties, then the required
`sources` list is parsed into (name, weight) pairs and recorded in
`_timeSeriesAggregationSourceList` keyed by the node's name. -/
def createAggregator (setting : TSSetting) : M (Option Nat) := do
  let timeSeries ← M.allocTS { kind := TSKind.aggregator }
  setGenericTimeSeriesProperties timeSeries setting
  let sources ← M.req setting.sources "sources"
  let sourceList ← parseAggSourceList sources
  let name ← M.tsObjName timeSeries
  M.modifyF fun st =>
    { st with aggregationSourceList := mapInsert name sourceList st.aggregationSourceList }
  M.pure (some timeSeries)

/-- `ConfigFactory::createMovingAverage`: required `window`. -/
def createMovingAverage (setting : TSSetting) : M (Option Nat) := do
  let timeSeries ← M.allocTS { kind := TSKind.movingAverage }
  setGenericTimeSeriesProperties timeSeries setting
  let window ← M.req setting.window "window"
  M.modifyTS timeSeries fun o => { o with windowSize := some window }
  M.pure (some timeSeries)

/-- `ConfigFactory::createResampler`. -/
def createResampler (setting : TSSetting) : M (Option Nat) := do
  let resampler ← M.allocTS { kind := TSKind.resampler }
  setGenericTimeSeriesProperties resampler setting
  M.pure (some resampler)

/-- `ConfigFactory::createDerivative` (registered for both "Derivative" and
"FirstDerivative"). -/
def createDerivative (setting : TSSetting) : M (Option Nat) := do
  let derivative ← M.allocTS { kind := TSKind.firstDerivative }
  setGenericTimeSeriesProperties derivative setting
  M.pure (some derivative)

/-- `ConfigFactory::createOffset`: optional `offsetValue`. -/
def createOffset (setting : TSSetting) : M (Option Nat) := do
  let offset ← M.allocTS { kind := TSKind.offset }
  setGenericTimeSeriesProperties offset setting
  match setting.offsetValue with
  | some _ => do
      let v := getConfigDouble setting.offsetValue
      M.modifyTS offset fun o => { o with offsetValue := some v }
  | none => M.pure ()
  M.pure (some offset)

/-- `ConfigFactory::createThreshold`: optional `thresholdValue`. -/
def createThreshold (setting : TSSetting) : M (Option Nat) := do
  let status ← M.allocTS { kind := TSKind.threshold }
  setGenericTimeSeriesProperties status setting
  match setting.thresholdValue with
  | some _ => do
      let v := getConfigDouble setting.thresholdValue
      M.modifyTS status fun o => { o with thresholdValue := some v }
  | none => M.pure ()
  M.pure (some status)

/-- The coordinate loop inside `ConfigFactory::createCurveFunction`: only
entries carrying both `x` and `y` are added. -/
def addCurveCoordinates (timeSeries : Nat) : List CurvePoint → M Unit
  | [] => M.pure ()
  | thisCoordinate :: rest => do
      match thisCoordinate.x, thisCoordinate.y with
      | some _, some _ => do
          let x := getConfigDouble thisCoordinate.x
          let y := getConfigDouble thisCoordinate.y
          M.modifyTS timeSeries fun o => { o with curve := o.curve ++ [(x, y)] }
      | _, _ => M.pure ()
      addCurveCoordinates timeSeries rest

/-- `ConfigFactory::createCurveFunction`: optional `inputUnits` (default
dimensionless), required `function` coordinate list. -/
def createCurveFunction (setting : TSSetting) : M (Option Nat) := do
  let timeSeries ← M.allocTS { kind := TSKind.curveFunction }
  setGenericTimeSeriesProperties timeSeries setting
  let theUnits : RtxUnits :=
    match setting.inputUnits with
    | some unitName => RtxUnits.unitOfType unitName
    | none => RtxUnits.dimensionless
  M.modifyTS timeSeries fun o => { o with inputUnits := some theUnits }
  let coordinates ← M.req setting.function "function"
  addCurveCoordinates timeSeries coordinates
  M.pure (some timeSeries)

/-- `ConfigFactory::createConstant`: optional `value`. -/
def createConstant (setting : TSSetting) : M (Option Nat) := do
  let constant ← M.allocTS { kind := TSKind.constant }
  setGenericTimeSeriesProperties constant setting
  match setting.value with
  | some _ => do
      let val := getConfigDouble setting.value
      M.modifyTS constant fun o => { o with constantValue := some val }
  | none => M.pure ()
  M.pure (some constant)

/-- `ConfigFactory::createValidRange`: optional `range_min`/`range_max`
override the object's current range; an unrecognized `mode` string is
reported; `setRange` is always called with the resulting pair. -/
def createValidRange (setting : TSSetting) : M (Option Nat) := do
  let ts ← M.allocTS { kind := TSKind.validRange }
  setGenericTimeSeriesProperties ts setting
  let st ← M.get
  let current : ℚ × ℚ :=
    match lookupKey ts st.tsHeap with
    | some o => (o.rangeMin, o.rangeMax)
    | none => (0, 0)
  let first : ℚ :=
    match setting.rangeMin with
    | some v => getConfigDouble (some v)
    | none => current.1
  let second : ℚ :=
    match setting.rangeMax with
    | some v => getConfigDouble (some v)
    | none => current.2
  match setting.mode with
  | some mode =>
      if rtxStringsAreEqual mode "drop" then
        M.modifyTS ts fun o => { o with mode := some VRMode.drop }
      else if rtxStringsAreEqual mode "saturate" then
        M.modifyTS ts fun o => { o with mode := some VRMode.saturate }
      else
        M.emit (Diag.couldNotResolveMode mode)
  | none => M.pure ()
  M.modifyTS ts fun o => { o with rangeMin := first, rangeMax := second }
  M.pure (some ts)

/-- `ConfigFactory::createMultiplier`: when a `multiplier` (basis name)
field is present, record the (node pointer, basis name) pair in
`_multiplierBasisList` to be connected later. -/
def createMultiplier (setting : TSSetting) : M (Option Nat) := do
  let ts ← M.allocTS { kind := TSKind.multiplier }
  setGenericTimeSeriesProperties ts setting
  match setting.multiplier with
  | some basis =>
      M.modifyF fun st =>
        { st with multiplierBasisList := mapInsert ts basis st.multiplierBasisList }
  | none => M.pure ()
  M.pure (some ts)

/-- `ConfigFactory::createTimeSeriesOfType`: required `type` discriminator,
looked up in `_timeSeriesPointerMap`; an unregistered type yields a
diagnostic and a null pointer. -/
def createTimeSeriesOfType (setting : TSSetting) : M (Option Nat) := do
  let type ← M.req setting.type "type"
  match type with
  | "TimeSeries" => createTimeSeries setting
  | "MovingAverage" => createMovingAverage setting
  | "Aggregator" => createAggregator setting
  | "Resampler" => createResampler setting
  | "Derivative" => createDerivative setting
  | "FirstDerivative" => createDerivative setting
  | "Offset" => createOffset setting
  | "Threshold" => createThreshold setting
  | "CurveFunction" => createCurveFunction setting
  | "Multiplier" => createMultiplier setting
  | "ValidRange" => createValidRange setting
  | "Constant" => createConstant setting
  | t => do
      M.emit (Diag.timeSeriesTypeNotRecognized t)
      M.pure none

/-- Phase 1 of `ConfigFactory::createTimeSeriesList`: construct every node
(`name` is read with `operator[]`, throwing when absent); non-null results
are stored under their name (last write wins), null results are reported and
skipped. -/
def buildTimeSeriesEntries : List TSSetting → M Unit
  | [] => M.pure ()
  | series :: rest => do
      let seriesName ← M.req series.name "name"
      let theTimeSeries ← createTimeSeriesOfType series
      match theTimeSeries with
      | some _ =>
          M.modifyF fun st =>
            { st with timeSeriesList := mapInsert seriesName theTimeSeries st.timeSeriesList }
      | none => M.emit (Diag.couldNotCreateTimeSeries seriesName)
      buildTimeSeriesEntries rest

/-- The single-source connection loop of `createTimeSeriesList`: for each
recorded (dependent, source) name pair, skip with a diagnostic when either
name is absent from `_timeSeriesList`; otherwise fetch both through
`operator[]` and call `setSource` on the dependent. -/
def connectSingleSources : List (String × String) → M Unit
  | [] => M.pure ()
  | (tsName, sourceName) :: rest => do
      let st ← M.get
      match lookupKey tsName st.timeSeriesList with
      | none => do
          M.emit (Diag.cannotLocateTimeSeries tsName)
          connectSingleSources rest
      | some _ =>
          match lookupKey sourceName st.timeSeriesList with
          | none => do
              M.emit (Diag.cannotLocateSourceTimeSeries sourceName tsName)
              connectSingleSources rest
          | some _ => do
              let st ← M.get
              let sub1 := mapSubscript tsName st.timeSeriesList
              let sub2 := mapSubscript sourceName sub1.2
              M.set { st with timeSeriesList := sub2.2 }
              M.callOn sub1.1 fun o => { o with source := some sub2.1 }
              connectSingleSources rest

/-- The multiplier connection loop of `createTimeSeriesList`: for each
recorded (node pointer, basis name) pair, skip with a diagnostic when the
node's *own* name is absent from `_timeSeriesList`; the basis itself is
fetched with `operator[]` with no existence check (silently inserting and
attaching a null pointer when absent) and handed to `setMultiplier`. -/
def connectMultiplierBases : List (Nat × String) → M Unit
  | [] => M.pure ()
  | (ts, basisName) :: rest => do
      let name ← M.tsObjName ts
      let st ← M.get
      match lookupKey name st.timeSeriesList with
      | none => do
          M.emit (Diag.cannotLocateTimeSeries name)
          connectMultiplierBases rest
      | some _ => do
          let st ← M.get
          let sub := mapSubscript basisName st.timeSeriesList
          M.set { st with timeSeriesList := sub.2 }
          M.modifyTS ts fun o => { o with multiplierBasis := some sub.1 }
          connectMultiplierBases rest

/-- The inner loop of the aggregator connection pass: each (source name,
weight) pair is resolved independently; a missing source yields one
diagnostic and is skipped without invalidating the rest. -/
def attachAggSources (ts : Option Nat) (tsName : String) :
    List (String × ℚ) → M Unit
  | [] => M.pure ()
  | (sourceName, multiplier) :: rest => do
      let st ← M.get
      match lookupKey sourceName st.timeSeriesList with
      | none => do
          M.emit (Diag.cannotLocateSourceTimeSeries sourceName tsName)
          attachAggSources ts tsName rest
      | some source => do
          M.callOn ts fun o => { o with aggSources := o.aggSources ++ [(source, multiplier)] }
          attachAggSources ts tsName rest

/-- The aggregator connection loop of `createTimeSeriesList`: resolve the
dependent once (skipping the whole entry with a diagnostic when its name is
absent), then attach its weighted sources one by one. -/
def connectAggregators : List (String × List (String × ℚ)) → M Unit
  | [] => M.pure ()
  | (tsName, aggregationList) :: rest => do
      let st ← M.get
      match lookupKey tsName st.timeSeriesList with
      | none => do
          M.emit (Diag.cannotLocateTimeSeries tsName)
          connectAggregators rest
      | some ts => do
          attachAggSources ts tsName aggregationList
          connectAggregators rest

/-- `ConfigFactory::createTimeSeriesList`: construct every node first, then
run the three deferred connection passes (single sources, multiplier bases,
aggregator sources) over the completed name table. -/
def createTimeSeriesList (timeSeriesGroup : List TSSetting) : M Unit := do
  buildTimeSeriesEntries timeSeriesGroup
  let st1 ← M.get
  connectSingleSources st1.timeSeriesSourceList
  let st2 ← M.get
  connectMultiplierBases st2.multiplierBasisList
  let st3 ← M.get
  connectAggregators st3.aggregationSourceList

/-- The element-parameter kinds registered in `_parameterSetter`. -/
inductive ParamKind where
  | qualitysource | quality | boundaryflow | headmeasure | pressuremeasure
  | levelmeasure | boundaryhead | status | flow | curve | energy | setting
deriving Repr, DecidableEq

/-- The `_parameterSetter` registry built in the constructor: parameter
discriminator string to configuration function. -/
def parameterSetterFor (t : String) : Option ParamKind :=
  if t = "qualitysource" then some ParamKind.qualitysource
  else if t = "quality" then some ParamKind.quality
  else if t = "boundaryflow" then some ParamKind.boundaryflow
  else if t = "headmeasure" then some ParamKind.headmeasure
  else if t = "pressuremeasure" then some ParamKind.pressuremeasure
  else if t = "levelmeasure" then some ParamKind.levelmeasure
  else if t = "boundaryhead" then some ParamKind.boundaryhead
  else if t = "status" then some ParamKind.status
  else if t = "flow" then some ParamKind.flow
  else if t = "curve" then some ParamKind.curve
  else if t = "energy" then some ParamKind.energy
  else if t = "setting" then some ParamKind.setting
  else none

/-- Modelled from the spec: each configuration function begins with a
`dynamic_pointer_cast` to the element class it targets; the element class
hierarchy (Tank and Reservoir specialize Junction; Pump and Valve specialize
Pipe) lives in the external model headers.  A failed cast silently skips the
binding (§4.5). -/
def castOk (fp : ParamKind) (k : ElemKind) : Bool :=
  match fp with
  | ParamKind.qualitysource | ParamKind.quality | ParamKind.boundaryflow
  | ParamKind.headmeasure | ParamKind.pressuremeasure =>
      k = ElemKind.junction || k = ElemKind.tank || k = ElemKind.reservoir
  | ParamKind.levelmeasure => k = ElemKind.tank
  | ParamKind.boundaryhead => k = ElemKind.reservoir
  | ParamKind.status | ParamKind.flow =>
      k = ElemKind.pipe || k = ElemKind.pump || k = ElemKind.valve
  | ParamKind.curve | ParamKind.energy => k = ElemKind.pump
  | ParamKind.setting => k = ElemKind.valve

/-- The binding slot each configuration function writes. -/
def paramBindingName (fp : ParamKind) : String :=
  match fp with
  | ParamKind.qualitysource => "qualitysource"
  | ParamKind.quality => "quality"
  | ParamKind.boundaryflow => "boundaryflow"
  | ParamKind.headmeasure => "headmeasure"
  | ParamKind.pressuremeasure => "pressuremeasure"
  | ParamKind.levelmeasure => "levelmeasure"
  | ParamKind.boundaryhead => "boundaryhead"
  | ParamKind.status => "status"
  | ParamKind.flow => "flow"
  | ParamKind.curve => "curve"
  | ParamKind.energy => "energy"
  | ParamKind.setting => "setting"

/-- One `ConfigFactory::configure...` element function: re-read the
`timeseries` name, fetch the series through `_timeSeriesList` `operator[]`
(inserting a null under a missing name) and, when the dynamic cast succeeds,
apply the parameter binding to the element. -/
def applyParameterSetter (fp : ParamKind) (es : ElemSetting) (element : Nat) : M Unit := do
  let tsName ← M.req es.timeseries "timeseries"
  let st ← M.get
  let sub := mapSubscript tsName st.timeSeriesList
  M.set { st with timeSeriesList := sub.2 }
  let st2 ← M.get
  match lookupKey element st2.elemHeap with
  | none => M.pure ()
  | some e =>
      if castOk fp e.kind then
        let e2 := { e with bindings := e.bindings ++ [(paramBindingName fp, sub.1)] }
        M.modifyF fun s => { s with elemHeap := mapInsert element e2 s.elemHeap }
      else M.pure ()

/-- The entry loop of `ConfigFactory::configureElement` over the
`configuration.elements` list.  For an entry matching this element's name:
a missing `parameter` field is *reported as skipped* but then read anyway
with `operator[]` (throwing); an unregistered parameter type or an unfound
(null) time series makes the function `return`, abandoning the remaining
entries for this element. -/
def configureElementEntries (element : Nat) (name : String) :
    List ElemSetting → M Unit
  | [] => M.pure ()
  | elementSetting :: rest => do
      let modelID ← M.req elementSetting.modelId "model_id"
      if rtxStringsAreEqual modelID name then do
        match elementSetting.parameter with
        | none => M.emit (Diag.skippingElementMissingParameter modelID)
        | some _ => M.pure ()
        let parameterType ← M.req elementSetting.parameter "parameter"
        match parameterSetterFor parameterType with
        | none => M.emit (Diag.couldNotFindParameterType parameterType)
        | some fp => do
            let tsName ← M.req elementSetting.timeseries "timeseries"
            let st ← M.get
            let sub := mapSubscript tsName st.timeSeriesList
            M.set { st with timeSeriesList := sub.2 }
            match sub.1 with
            | none => M.emit (Diag.couldNotFindTimeSeriesForElement tsName)
            | some _ => do
                applyParameterSetter fp elementSetting element
                configureElementEntries element name rest
      else configureElementEntries element name rest

/-- `ConfigFactory::configureElement`: nothing to do when the configuration
has no `configuration.elements` section; otherwise scan the entry list for
this element's name. -/
def configureElement (element : Nat) : M Unit := do
  let st ← M.get
  match lookupKey element st.elemHeap with
  | none => M.pure ()
  | some e =>
      match st.configuration.elements with
      | none => M.pure ()
      | some elements => configureElementEntries element e.name elements

/-- `ConfigFactory::configureElements`: configure each live model element. -/
def configureElements : List Nat → M Unit
  | [] => M.pure ()
  | element :: rest => do
      configureElement element
      configureElements rest

/-- Install the external model's elements on the heap (the element list is
produced by the external `loadModelFromFile`). -/
def allocModelElements : List ElementObj → M (List Nat)
  | [] => M.pure []
  | e :: rest => do
      let i ← M.allocElem e
      let tail ← allocModelElements rest
      M.pure (i :: tail)

/-- `ConfigFactory::createModel`: required `type` and `file`; the model path
is `dirname(configPath) / file`.  For the recognized types an external model
object is created and loaded (its elements, supplied by the external model
file, are given by `modelElements`) and every element is configured; an
unrecognized type silently does nothing. -/
def createModel (setting : ModelSetting) (modelElements : List ElementObj) : M Unit := do
  let modelType ← M.req setting.type "type"
  let modelFileName ← M.req setting.file "file"
  let st ← M.get
  let modelPath := pathJoin (parentPath st.configPath) modelFileName
  if rtxStringsAreEqual modelType "epanet" then do
    let ids ← allocModelElements modelElements
    M.modifyF fun s =>
      { s with model := some { kind := "epanet", sourceFile := modelPath, elements := ids } }
    configureElements ids
  else M.pure ()
  if rtxStringsAreEqual modelType "synthetic_epanet" then do
    let ids ← allocModelElements modelElements
    M.modifyF fun s =>
      { s with model := some { kind := "synthetic_epanet", sourceFile := modelPath, elements := ids } }
    configureElements ids
  else M.pure ()

/-- `ConfigFactory::createSimulationDefaults`: the `time` group and its
`hydraulic` and `quality` members are all read with `operator[]` (throwing
when absent) and handed to the model's step-size setters. -/
def createSimulationDefaults (setting : SimulationSetting) : M Unit := do
  let timeSetting ← M.req setting.time "time"
  let hydStep ← M.req timeSetting.hydraulic "hydraulic"
  let qualStep ← M.req timeSetting.quality "quality"
  M.modifyF fun st =>
    { st with model := st.model.map fun m =>
        { m with hydraulicTimeStep := some hydStep, qualityTimeStep := some qualStep } }

/-- `ConfigFactory::createZones`: when `auto_detect` is present and true,
delegate demand-zone discovery to the model with the optional
`detect_closed_links` flag (default false). -/
def createZones (zoneGroup : ZoneSetting) : M Unit := do
  match zoneGroup.autoDetect with
  | some autoDetect => do
      let detectClosed : Bool :=
        match zoneGroup.detectClosedLinks with
        | some b => b
        | none => false
      if autoDetect then
        M.modifyF fun st =>
          { st with model := st.model.map fun m =>
              { m with demandZonesDetectClosed := some detectClosed } }
      else M.pure ()
  | none => M.pure ()

/-- Modelled from the spec: the `measured` save policy (§8) attaches the
default record only to element states that already carry a bound measurement
series; the per-element state series live in the external model classes. -/
def attachMeasuredRecord (rec : Option Nat) (e : ElementObj) : ElementObj :=
  match e.kind with
  | ElemKind.junction | ElemKind.tank | ElemKind.reservoir =>
      let withHead :=
        if (lookupKey "headmeasure" e.bindings).isSome then
          { e with stateRecords := e.stateRecords ++ [("head", rec)] }
        else e
      if (lookupKey "quality" withHead.bindings).isSome then
        { withHead with stateRecords := withHead.stateRecords ++ [("quality", rec)] }
      else withHead
  | ElemKind.pipe | ElemKind.pump | ElemKind.valve =>
      if (lookupKey "flow" e.bindings).isSome then
        { e with stateRecords := e.stateRecords ++ [("flow", rec)] }
      else e

/-- The `save_states` token loop of `ConfigFactory::createSaveOptions`:
`all` hands the default record to the whole model's storage, `measured`
attaches it to measured states only, `zone_demand` to every zone's
aggregate; unknown tokens are silently ignored. -/
def applySaveStates : List String → M Unit
  | [] => M.pure ()
  | stateToSave :: rest => do
      if rtxStringsAreEqual stateToSave "all" then
        M.modifyF fun st =>
          { st with model := st.model.map fun m => { m with storage := some st.defaultRecord } }
      else if rtxStringsAreEqual stateToSave "measured" then
        M.modifyF fun st =>
          { st with elemHeap := st.elemHeap.map fun c =>
              (c.1, attachMeasuredRecord st.defaultRecord c.2) }
      else if rtxStringsAreEqual stateToSave "zone_demand" then
        M.modifyF fun st =>
          { st with model := st.model.map fun m => { m with zoneRecord := some st.defaultRecord } }
      else M.pure ()
      applySaveStates rest

/-- `ConfigFactory::createSaveOptions`: with a `staterecord` member, fetch
the default record by name (diagnosing, but still subscripting, a missing
name) and apply the `save_states` selection tokens (complaining when
`save_states` is not a list).  Without `staterecord` the factory only warns
that model results will not be persisted. -/
def createSaveOptions (saveGroup : SaveSetting) : M Unit := do
  match saveGroup.staterecord with
  | some defaultRecordName => do
      M.modifyF fun st => { st with doesHaveStateRecord := true }
      let st ← M.get
      match lookupKey defaultRecordName st.pointRecordList with
      | none => M.emit (Diag.couldNotRetrievePointRecord defaultRecordName)
      | some _ => M.pure ()
      let st1 ← M.get
      let sub := mapSubscript defaultRecordName st1.pointRecordList
      M.set { st1 with pointRecordList := sub.2, defaultRecord := sub.1 }
      match saveGroup.saveStates with
      | some (SaveStates.list states) => applySaveStates states
      | some SaveStates.nonList => M.emit Diag.saveStatesNotAList
      | none => M.pure ()
  | none => M.emit Diag.noStateRecordWarning

/-- `ConfigFactory::loadConfigFile` after a successful parse (file-I/O and
parse failures are caught around `readFile` and abort before any section is
touched, so the input here is a parsed document).  The `version` setting is
read with `Config::lookup`, which throws when it is absent.  Every other
section is guarded by `exists`: an absent section merely has an empty
placeholder added to the in-memory tree (no further effect) while a present
one is processed.  `modelElements` stands for the contents of the external
model file consumed by `createModel`. -/
def loadConfigFile (path : String) (doc : ConfigDoc)
    (modelElements : List ElementObj) : M Unit := do
  M.modifyF fun st => { st with configPath := path, configuration := doc }
  let _version ← M.req doc.version "version"
  match doc.records with
  | some records => createPointRecords records
  | none => M.pure ()
  match doc.clocks with
  | some clockGroup => createClocks clockGroup
  | none => M.pure ()
  match doc.timeseries with
  | some timeSeriesGroup => createTimeSeriesList timeSeriesGroup
  | none => M.pure ()
  match doc.model with
  | some modelGroup => createModel modelGroup modelElements
  | none => M.pure ()
  match doc.simulation with
  | some simulationGroup => createSimulationDefaults simulationGroup
  | none => M.pure ()
  match doc.zones with
  | some zoneGroup => createZones zoneGroup
  | none => M.pure ()
  match doc.save with
  | some saveGroup => createSaveOptions saveGroup
  | none => M.pure ()

end ConfigFactory

/-- The (pointer, weight) pairs that the aggregator connection loop attaches
when run against the name table `m`: each source name that resolves
contributes its stored pointer with its recorded weight; missing names are
skipped. -/
def attachedPairs (m : List (String × Option Nat)) (l : List (String × ℚ)) :
    List (Option Nat × ℚ) :=
  l.filterMap fun p => (lookupKey p.1 m).map fun v => (v, p.2)

/-- The diagnostics that the aggregator connection loop emits for dependent
`tsName` when run against the name table `m`: one per unresolvable source
name, in list order. -/
def missingSourceDiags (m : List (String × Option Nat)) (tsName : String)
    (l : List (String × ℚ)) : List Diag :=
  (l.filter fun p => lookupKey p.1 m = none).map
    fun p => Diag.cannotLocateSourceTimeSeries p.1 tsName

/-- Distinctness of the keys of an association list (the representation
invariant of the embedded `std::map`s). -/
def KeysDistinct {κ α : Type} (m : List (κ × α)) : Prop :=
  List.Pairwise (fun p q => p.1 ≠ q.1) m

/-- Every non-null pointer stored in `_timeSeriesList` is a live heap cell
allocated below the bump counter. -/
def TableOK (st : FState) : Prop :=
  ∀ nm j, lookupKey nm st.timeSeriesList = some (some j) →
    (lookupKey j st.tsHeap).isSome = true ∧ j < st.nextId

/-- Distinct names in `_timeSeriesList` hold distinct non-null pointers
(each constructed node is inserted under exactly one name). -/
def TableInj (st : FState) : Prop :=
  ∀ a b j, lookupKey a st.timeSeriesList = some (some j) →
    lookupKey b st.timeSeriesList = some (some j) → a = b

/-- The invariant maintained by the construction phase of
`createTimeSeriesList`. -/
def PhaseInv (st : FState) : Prop :=
  TableOK st ∧ TableInj st ∧ KeysDistinct st.timeSeriesSourceList

/-- No "results will not be persisted" warning has been written. -/
def NoWarn (st : FState) : Prop := Diag.noStateRecordWarning ∉ st.diags

/-- What one time-series construction step may do to the factory state: it
never touches `_timeSeriesList`, only allocates upward, never drops a live
heap cell, and keeps the pending single-source map free of duplicate keys. -/
def BuildStep (st st2 : FState) : Prop :=
  st2.timeSeriesList = st.timeSeriesList ∧
  st.nextId ≤ st2.nextId ∧
  (∀ j, (lookupKey j st.tsHeap).isSome = true →
    (lookupKey j st2.tsHeap).isSome = true) ∧
  (KeysDistinct st.timeSeriesSourceList → KeysDistinct st2.timeSeriesSourceList)

/-- Contract of a `create...` time-series constructor run from state `st`
producing result/state pair `p`: a `BuildStep`, and on success the returned
pointer is a freshly allocated live heap cell. -/
def CreatorOK (st : FState) (p : Except CfgErr (Option Nat) × FState) : Prop :=
  BuildStep st p.2 ∧
  ∀ i, p.1 = Except.ok (some i) →
    st.nextId ≤ i ∧ i < p.2.nextId ∧ (lookupKey i p.2.tsHeap).isSome = true

/-- Contract of the kind-specific tail of a `create...` constructor (the
part after `setGenericTimeSeriesProperties`, holding the just-allocated
pointer `ts`): it leaves `_timeSeriesList`, the bump counter and the pending
single-source map alone, keeps live heap cells live, and on success returns
exactly `ts`. -/
def TailOK (ts : Nat) (tail : M (Option Nat)) : Prop :=
  ∀ st : FState,
    ((tail st).2).timeSeriesList = st.timeSeriesList ∧
    ((tail st).2).nextId = st.nextId ∧
    (∀ j, (lookupKey j st.tsHeap).isSome = true →
      (lookupKey j ((tail st).2).tsHeap).isSome = true) ∧
    (KeysDistinct st.timeSeriesSourceList →
      KeysDistinct ((tail st).2).timeSeriesSourceList) ∧
    (∀ v, (tail st).1 = Except.ok v → v = some ts)

section RunLemmas

variable {α β : Type}

@[simp] theorem run_bind (x : M α) (f : α → M β) (st : FState) :
    (x >>= f) st =
      match x st with
      | (Except.ok a, st') => f a st'
      | (Except.error e, st') => (Except.error e, st') := rfl

@[simp] theorem run_pure (a : α) (st : FState) :
    (pure a : M α) st = (Except.ok a, st) := rfl

@[simp] theorem run_M_pure (a : α) (st : FState) :
    M.pure a st = (Except.ok a, st) := rfl

@[simp] theorem run_get (st : FState) : M.get st = (Except.ok st, st) := rfl

@[simp] theorem run_set (st' st : FState) :
    M.set st' st = (Except.ok (), st') := rfl

@[simp] theorem run_modifyF (f : FState → FState) (st : FState) :
    M.modifyF f st = (Except.ok (), f st) := rfl

@[simp] theorem run_throw (e : CfgErr) (st : FState) :
    (M.throw e : M α) st = (Except.error e, st) := rfl

@[simp] theorem run_req_some (a : α) (p : String) (st : FState) :
    M.req (some a) p st = (Except.ok a, st) := rfl

@[simp] theorem run_req_none (p : String) (st : FState) :
    (M.req (none : Option α) p) st =
      (Except.error (CfgErr.settingNotFound p), st) := rfl

@[simp] theorem run_emit (d : Diag) (st : FState) :
    M.emit d st = (Except.ok (), { st with diags := st.diags ++ [d] }) := rfl

@[simp] theorem run_allocTS (o : TSObj) (st : FState) :
    M.allocTS o st =
      (Except.ok st.nextId,
       { st with nextId := st.nextId + 1,
                 tsHeap := mapInsert st.nextId o st.tsHeap }) := rfl

@[simp] theorem run_allocClock (o : ClockObj) (st : FState) :
    M.allocClock o st =
      (Except.ok st.nextId,
       { st with nextId := st.nextId + 1,
                 clockHeap := mapInsert st.nextId o st.clockHeap }) := rfl

@[simp] theorem run_allocPR (o : PRObj) (st : FState) :
    M.allocPR o st =
      (Except.ok st.nextId,
       { st with nextId := st.nextId + 1,
                 prHeap := mapInsert st.nextId o st.prHeap }) := rfl

@[simp] theorem run_allocElem (o : ElementObj) (st : FState) :
    M.allocElem o st =
      (Except.ok st.nextId,
       { st with nextId := st.nextId + 1,
                 elemHeap := mapInsert st.nextId o st.elemHeap }) := rfl

@[simp] theorem run_modifyTS (i : Nat) (f : TSObj → TSObj) (st : FState) :
    M.modifyTS i f st =
      (Except.ok (), { st with tsHeap := heapModify i f st.tsHeap }) := rfl

@[simp] theorem run_callOn_some (i : Nat) (f : TSObj → TSObj) (st : FState) :
    M.callOn (some i) f st =
      (Except.ok (), { st with tsHeap := heapModify i f st.tsHeap }) := rfl

@[simp] theorem run_callOn_none (f : TSObj → TSObj) (st : FState) :
    M.callOn none f st = (Except.ok (), st) := rfl

@[simp] theorem run_tsObjName (i : Nat) (st : FState) :
    M.tsObjName i st =
      (Except.ok (((lookupKey i st.tsHeap).map TSObj.name).getD ""), st) := rfl

end RunLemmas

section MapLemmas

variable {κ α : Type}

@[simp] theorem lookupKey_nil [DecidableEq κ] (k : κ) :
    lookupKey k ([] : List (κ × α)) = none := rfl

theorem lookupKey_cons [DecidableEq κ] (k k' : κ) (v : α) (m : List (κ × α)) :
    lookupKey k ((k', v) :: m) = if k' = k then some v else lookupKey k m := rfl

@[simp] theorem lookupKey_mapInsert_self [DecidableEq κ]
    (k : κ) (v : α) (m : List (κ × α)) :
    lookupKey k (mapInsert k v m) = some v := by
  induction m with
  | nil => simp [mapInsert, lookupKey]
  | cons p rest ih =>
      obtain ⟨k', v'⟩ := p
      by_cases h1 : k' = k
      · simp [mapInsert, h1, lookupKey]
      · simp [mapInsert, h1, lookupKey, ih]

theorem lookupKey_mapInsert_ne [DecidableEq κ] (k k' : κ)
    (v : α) (m : List (κ × α)) (h : k' ≠ k) :
    lookupKey k' (mapInsert k v m) = lookupKey k' m := by
  have hk : ¬k = k' := fun hh => h hh.symm
  induction m with
  | nil => simp [mapInsert, lookupKey, hk]
  | cons p rest ih =>
      obtain ⟨a, b⟩ := p
      by_cases h1 : a = k
      · subst h1
        simp [mapInsert, lookupKey, hk]
      · simp [mapInsert, h1, lookupKey, ih]

theorem lookupKey_mem [DecidableEq κ] {k : κ} {v : α} {m : List (κ × α)}
    (h : lookupKey k m = some v) : (k, v) ∈ m := by
  induction m with
  | nil => simp [lookupKey] at h
  | cons p rest ih =>
      obtain ⟨a, b⟩ := p
      by_cases h1 : a = k
      · subst h1
        simp [lookupKey] at h
        subst h
        exact List.mem_cons_self _ _
      · simp [lookupKey, h1] at h
        exact List.mem_cons_of_mem _ (ih h)

theorem mem_mapInsert [DecidableEq κ] {k : κ} {v : α} {m : List (κ × α)}
    {p : κ × α} (h : p ∈ mapInsert k v m) : p = (k, v) ∨ p ∈ m := by
  induction m with
  | nil => simpa [mapInsert] using h
  | cons q rest ih =>
      obtain ⟨a, b⟩ := q
      by_cases h1 : a = k
      · simp [mapInsert, h1] at h
        rcases h with h | h
        · left; simp [h]
        · right; exact List.mem_cons_of_mem _ h
      · simp [mapInsert, h1] at h
        rcases h with h | h
        · right; simp [h]
        · rcases ih h with h3 | h3
          · exact Or.inl h3
          · right; exact List.mem_cons_of_mem _ h3

theorem keysDistinct_mapInsert [DecidableEq κ] (k : κ) (v : α)
    {m : List (κ × α)} (h : KeysDistinct m) : KeysDistinct (mapInsert k v m) := by
  induction m with
  | nil => simp [mapInsert, KeysDistinct]
  | cons q rest ih =>
      obtain ⟨a, b⟩ := q
      rw [KeysDistinct, List.pairwise_cons] at h
      obtain ⟨ha, hrest⟩ := h
      by_cases h1 : a = k
      · subst h1
        rw [KeysDistinct, mapInsert]
        simp only [if_pos rfl]
        exact List.Pairwise.cons (fun q hq => ha q hq) hrest
      · rw [KeysDistinct, mapInsert]
        simp only [if_neg h1]
        refine List.Pairwise.cons ?_ (ih hrest)
        intro q hq
        rcases mem_mapInsert hq with h3 | h3
        · subst h3
          exact h1
        · exact ha q h3

theorem mapInsert_mapInsert_same [DecidableEq κ] (k : κ) (v w : α)
    (m : List (κ × α)) : mapInsert k w (mapInsert k v m) = mapInsert k w m := by
  induction m with
  | nil => simp [mapInsert]
  | cons q rest ih =>
      obtain ⟨a, b⟩ := q
      by_cases h1 : a = k
      · simp [mapInsert, h1]
      · simp [mapInsert, h1, ih]

theorem lookupKey_heapModify_self {γ : Type} (i : Nat) (f : γ → γ)
    (h : List (Nat × γ)) :
    lookupKey i (heapModify i f h) = (lookupKey i h).map f := by
  rw [heapModify]
  cases hl : lookupKey i h with
  | none => simp [hl]
  | some o => simp [hl]

theorem lookupKey_heapModify_ne {γ : Type} (i j : Nat) (f : γ → γ)
    (h : List (Nat × γ)) (hij : j ≠ i) :
    lookupKey j (heapModify i f h) = lookupKey j h := by
  rw [heapModify]
  cases hl : lookupKey i h with
  | none => rfl
  | some o => exact lookupKey_mapInsert_ne i j (f o) h hij

theorem isSome_lookupKey_heapModify {γ : Type} (i j : Nat) (f : γ → γ)
    (h : List (Nat × γ)) :
    (lookupKey j (heapModify i f h)).isSome = (lookupKey j h).isSome := by
  by_cases hij : j = i
  · subst hij
    rw [lookupKey_heapModify_self]
    cases lookupKey j h <;> rfl
  · rw [lookupKey_heapModify_ne _ _ _ _ hij]

theorem heapModify_heapModify {γ : Type} (i : Nat) (f g : γ → γ)
    (h : List (Nat × γ)) :
    heapModify i g (heapModify i f h) = heapModify i (fun o => g (f o)) h := by
  rw [heapModify, heapModify, heapModify]
  cases hl : lookupKey i h with
  | none => simp [hl]
  | some o => simp [hl, lookupKey_mapInsert_self, mapInsert_mapInsert_same]

theorem mapSubscript_found [DecidableEq κ] {k : κ}
    {m : List (κ × Option Nat)} {v : Option Nat}
    (h : lookupKey k m = some v) : mapSubscript k m = (v, m) := by
  rw [mapSubscript, h]

theorem mapSubscript_missing [DecidableEq κ] {k : κ}
    {m : List (κ × Option Nat)} (h : lookupKey k m = none) :
    mapSubscript k m = (none, mapInsert k none m) := by
  rw [mapSubscript, h]

end MapLemmas

section GenericProps

open ConfigFactory

theorem setGeneric_err (i : Nat) (e : TSSetting) (st : FState)
    (h : e.name = none) :
    setGenericTimeSeriesProperties i e st =
      (Except.error (CfgErr.settingNotFound "name"), st) := by
  simp [setGenericTimeSeriesProperties, h]

theorem setGeneric_eq (i : Nat) (e : TSSetting) (st : FState) (n : String)
    (hname : e.name = some n) :
    setGenericTimeSeriesProperties i e st =
      (Except.ok (),
       { st with
         tsHeap := heapModify i (fun o =>
           { o with
             name := n
             units := match e.units with
               | some u => RtxUnits.unitOfType u
               | none => RtxUnits.dimensionless
             clock := match e.clock with
               | some cn => some (mapSubscript cn st.clockList).1
               | none => o.clock
             record := match e.pointRecord with
               | some pn => some (mapSubscript pn st.pointRecordList).1
               | none => o.record }) st.tsHeap
         clockList := match e.clock with
           | some cn => (mapSubscript cn st.clockList).2
           | none => st.clockList
         pointRecordList := match e.pointRecord with
           | some pn => (mapSubscript pn st.pointRecordList).2
           | none => st.pointRecordList
         timeSeriesSourceList := match e.source with
           | some s => mapInsert n s st.timeSeriesSourceList
           | none => st.timeSeriesSourceList }) := by
  cases hc : e.clock <;> cases hp : e.pointRecord <;> cases hs : e.source <;>
    simp [setGenericTimeSeriesProperties, hname, hc, hp, hs,
      heapModify_heapModify]

theorem connectMult_cons_missing (ts : Nat) (basisName : String)
    (rest : List (Nat × String)) (st : FState) (o : TSObj) (p : Option Nat)
    (hheap : lookupKey ts st.tsHeap = some o)
    (htab : lookupKey o.name st.timeSeriesList = some p)
    (hmiss : lookupKey basisName st.timeSeriesList = none) :
    connectMultiplierBases ((ts, basisName) :: rest) st =
      connectMultiplierBases rest
        { st with
          timeSeriesList := mapInsert basisName none st.timeSeriesList
          tsHeap := heapModify ts
            (fun o2 => { o2 with multiplierBasis := some none }) st.tsHeap } := by
  simp [connectMultiplierBases, hheap, htab, mapSubscript_missing hmiss]

end GenericProps

section ClaimBatchOne

open ConfigFactory

/-- C9: `operator[]` on a name-keyed table never raises an error and inserts
a null binding for a missing name: (a) a time-series declaration naming an
unbuilt clock and point record still constructs, attaching null references
and inserting null entries under both names; (b) the multiplier resolver,
for a basis name absent from the node table, attaches a null multiplier and
inserts a null entry under the basis name. -/
theorem c9_missing_name_subscript_inserts_null :
    (∀ (i : Nat) (e : TSSetting) (st : FState) (n cn pn : String) (o : TSObj),
      e.name = some n → e.clock = some cn → e.pointRecord = some pn →
      lookupKey cn st.clockList = none →
      lookupKey pn st.pointRecordList = none →
      lookupKey i st.tsHeap = some o →
      (setGenericTimeSeriesProperties i e st).1 = Except.ok () ∧
      lookupKey cn ((setGenericTimeSeriesProperties i e st).2).clockList = some none ∧
      lookupKey pn ((setGenericTimeSeriesProperties i e st).2).pointRecordList = some none ∧
      lookupKey i ((setGenericTimeSeriesProperties i e st).2).tsHeap =
        some { o with
               name := n
               units := match e.units with
                 | some u => RtxUnits.unitOfType u
                 | none => RtxUnits.dimensionless
               clock := some none
               record := some none }) ∧
    (∀ (ts : Nat) (basisName : String) (st : FState) (o : TSObj) (p : Option Nat),
      lookupKey ts st.tsHeap = some o →
      lookupKey o.name st.timeSeriesList = some p →
      lookupKey basisName st.timeSeriesList = none →
      (connectMultiplierBases [(ts, basisName)] st).1 = Except.ok () ∧
      lookupKey basisName ((connectMultiplierBases [(ts, basisName)] st).2).timeSeriesList =
        some none ∧
      lookupKey ts ((connectMultiplierBases [(ts, basisName)] st).2).tsHeap =
        some { o with multiplierBasis := some none }) := by
  constructor
  · intro i e st n cn pn o hn hc hp hcm hpm hh
    rw [setGeneric_eq i e st n hn]
    refine ⟨rfl, ?_, ?_, ?_⟩
    · simp [hc, mapSubscript_missing hcm]
    · simp [hp, mapSubscript_missing hpm]
    · simp [lookupKey_heapModify_self, hh, hc, hp,
        mapSubscript_missing hcm, mapSubscript_missing hpm]
  · intro ts basisName st o p hh ht hm
    rw [connectMult_cons_missing ts basisName [] st o p hh ht hm]
    refine ⟨rfl, ?_, ?_⟩
    · simp [connectMultiplierBases]
    · simp [connectMultiplierBases, lookupKey_heapModify_self, hh]

/-- C9 witness: concrete declarations naming an unbuilt clock, point record
and multiplier basis. -/
theorem c9_witness :
    ((setGenericTimeSeriesProperties 0
        { name := some "n", clock := some "c", pointRecord := some "r" }
        { FState.init with
          nextId := 1
          tsHeap := [(0, { kind := TSKind.timeSeries })] }).1 = Except.ok ()) ∧
    lookupKey "ghost"
      ((connectMultiplierBases [(0, "ghost")]
        { FState.init with
          nextId := 1
          tsHeap := [(0, { kind := TSKind.multiplier, name := "m" })]
          timeSeriesList := [("m", some 0)]
          multiplierBasisList := [(0, "ghost")] }).2).timeSeriesList = some none := by
  constructor
  · exact ((c9_missing_name_subscript_inserts_null.1) 0
      { name := some "n", clock := some "c", pointRecord := some "r" }
      { FState.init with
        nextId := 1
        tsHeap := [(0, { kind := TSKind.timeSeries })] }
      "n" "c" "r" { kind := TSKind.timeSeries }
      (by decide) (by decide) (by decide) (by decide) (by decide) (by decide)).1
  · exact ((c9_missing_name_subscript_inserts_null.2) 0 "ghost"
      { FState.init with
        nextId := 1
        tsHeap := [(0, { kind := TSKind.multiplier, name := "m" })]
        timeSeriesList := [("m", some 0)]
        multiplierBasisList := [(0, "ghost")] }
      { kind := TSKind.multiplier, name := "m" } (some 0)
      (by decide) (by decide) (by decide)).2.1

/-- C2 counterexample: a multiplier node whose basis name "ghost" was never
declared.  The claim asserts the resolver "emits a diagnostic"; the load
emits no diagnostic at all (and silently inserts a null entry under the
basis name). -/
theorem c2_counterexample :
    ((createTimeSeriesList
        [{ name := some "m", type := some "Multiplier",
           multiplier := some "ghost" }] FState.init).2).diags = [] ∧
    lookupKey "ghost"
      ((createTimeSeriesList
        [{ name := some "m", type := some "Multiplier",
           multiplier := some "ghost" }] FState.init).2).timeSeriesList = some none := by
  decide

/-- C2 (amended): for every multiplier time-series whose configured basis
name is absent from the completed node table, the resolver emits **no**
diagnostic and does not skip the edge: it subscripts the table (inserting a
null entry under the basis name) and calls `setMultiplier` with the null
pointer, so the multiplier node remains constructed with no active
multiplier, and this is not a failure of the dependent node. -/
theorem c2_missing_basis_silent_null :
    ∀ (ts : Nat) (basisName : String) (rest : List (Nat × String)) (st : FState)
      (o : TSObj) (p : Option Nat),
      lookupKey ts st.tsHeap = some o →
      lookupKey o.name st.timeSeriesList = some p →
      lookupKey basisName st.timeSeriesList = none →
      connectMultiplierBases ((ts, basisName) :: rest) st =
        connectMultiplierBases rest
          { st with
            timeSeriesList := mapInsert basisName none st.timeSeriesList
            tsHeap := heapModify ts
              (fun o2 => { o2 with multiplierBasis := some none }) st.tsHeap } ∧
      ({ st with
         timeSeriesList := mapInsert basisName none st.timeSeriesList
         tsHeap := heapModify ts
           (fun o2 => { o2 with multiplierBasis := some none }) st.tsHeap } : FState).diags
        = st.diags ∧
      lookupKey ts
        (heapModify ts (fun o2 => { o2 with multiplierBasis := some none }) st.tsHeap) =
        some { o with multiplierBasis := some none } := by
  intro ts basisName rest st o p hh ht hm
  refine ⟨connectMult_cons_missing ts basisName rest st o p hh ht hm, rfl, ?_⟩
  simp [lookupKey_heapModify_self, hh]

/-- C2 witness: the concrete missing-basis run of the counterexample input,
through the amended statement. -/
theorem c2_witness :
    connectMultiplierBases [(0, "ghost")]
      { FState.init with
        nextId := 1
        tsHeap := [(0, { kind := TSKind.multiplier, name := "m" })]
        timeSeriesList := [("m", some 0)]
        multiplierBasisList := [(0, "ghost")] } =
      connectMultiplierBases []
        { FState.init with
          nextId := 1
          tsHeap := heapModify 0 (fun o2 => { o2 with multiplierBasis := some none })
            [(0, { kind := TSKind.multiplier, name := "m" })]
          timeSeriesList := mapInsert "ghost" none [("m", some 0)]
          multiplierBasisList := [(0, "ghost")] } := by
  have h := c2_missing_basis_silent_null 0 "ghost" []
    { FState.init with
      nextId := 1
      tsHeap := [(0, { kind := TSKind.multiplier, name := "m" })]
      timeSeriesList := [("m", some 0)]
      multiplierBasisList := [(0, "ghost")] }
    { kind := TSKind.multiplier, name := "m" } (some 0)
    (by decide) (by decide) (by decide)
  exact h.1

end ClaimBatchOne

section ClaimBatchTwo

open ConfigFactory

/-- C4: evaluation of `configureElement` at the failing input.  An elements
entry matching element "J1" lacks its required `parameter` field.  The code
prints "skipping element J1 : missing parameter" but then reads the missing
field with `operator[]` anyway, so the resulting `SettingNotFoundException`
aborts the element-configuration stage (and the load): the well-formed entry
following it is never applied (the element keeps no bindings), contradicting
both the claim and the code's own "skipping" diagnostic. -/
theorem c4_missing_parameter_aborts :
    ((configureElement 0
      { FState.init with
        configuration :=
          { version := some "1"
            elements := some
              [{ modelId := some "J1", timeseries := some "t" },
               { modelId := some "J1", parameter := some "headmeasure",
                 timeseries := some "t" }] }
        elemHeap := [(0, { name := "J1", kind := ElemKind.junction })]
        nextId := 1 }).1 =
      Except.error (CfgErr.settingNotFound "parameter")) ∧
    ((configureElement 0
      { FState.init with
        configuration :=
          { version := some "1"
            elements := some
              [{ modelId := some "J1", timeseries := some "t" },
               { modelId := some "J1", parameter := some "headmeasure",
                 timeseries := some "t" }] }
        elemHeap := [(0, { name := "J1", kind := ElemKind.junction })]
        nextId := 1 }).2).diags =
      [Diag.skippingElementMissingParameter "J1"] ∧
    ((configureElement 0
      { FState.init with
        configuration :=
          { version := some "1"
            elements := some
              [{ modelId := some "J1", timeseries := some "t" },
               { modelId := some "J1", parameter := some "headmeasure",
                 timeseries := some "t" }] }
        elemHeap := [(0, { name := "J1", kind := ElemKind.junction })]
        nextId := 1 }).2).elemHeap =
      [(0, { name := "J1", kind := ElemKind.junction })] := by
  decide

/-- C5 counterexample: the configuration document with *every* top-level
section absent.  The claim says the absence of any section listed in the
external-interface table, `version` included, does not cause an error; but
`Config::lookup("version")` throws, aborting the load. -/
theorem c5_counterexample :
    ((loadConfigFile "config.cfg" {} []) FState.init).1 =
      Except.error (CfgErr.settingNotFound "version") := by
  decide

/-- C5 (amended): the absence of any top-level section *other than
`version`* is tolerated — a document carrying only a `version` string loads
to completion with an empty placeholder for every section — while a missing
`version` setting raises a lookup error that aborts the load. -/
theorem c5_version_required :
    (∀ (v path : String) (es : List ElementObj),
      ((loadConfigFile path { version := some v } es) FState.init).1 =
        Except.ok ()) ∧
    (∀ (path : String) (doc : ConfigDoc) (es : List ElementObj) (st : FState),
      doc.version = none →
      ((loadConfigFile path doc es) st).1 =
        Except.error (CfgErr.settingNotFound "version")) := by
  constructor
  · intro v path es
    rfl
  · intro path doc es st h
    simp [loadConfigFile, h]

/-- C5 witness: both halves of the amended statement at concrete inputs. -/
theorem c5_witness :
    (((loadConfigFile "dir/cfg.cfg" { version := some "1.0" } []) FState.init).1 =
      Except.ok ()) ∧
    (((loadConfigFile "dir/cfg.cfg" {} []) FState.init).1 =
      Except.error (CfgErr.settingNotFound "version")) :=
  ⟨c5_version_required.1 "1.0" "dir/cfg.cfg" [],
   c5_version_required.2 "dir/cfg.cfg" {} [] FState.init rfl⟩

/-- C6 counterexample: a document with a `version` and no `save` section.
The load is valid and completes — but, contrary to the claim, *no* warning
is emitted (the "results will not be persisted" warning is only printed by
`createSaveOptions`, which never runs when the section is absent). -/
theorem c6_counterexample :
    (((loadConfigFile "config.cfg" { version := some "1.0" } []) FState.init).1 =
      Except.ok ()) ∧
    (((loadConfigFile "config.cfg" { version := some "1.0" } []) FState.init).2).diags
      = [] := by
  decide

/-- C7: round-tripping a declaration through construction.  (a) A valid
time-series declaration yields a node whose name equals the declared name,
whose units equal the declared unit (dimensionless when no `units` field is
present), and whose clock and point-record references are exactly the values
stored under those names in the already-built tables.  (b) A valid flat-file
(CSV) record declaration yields a backend whose storage path is
`dirname(configDocument) / declaredRelativePath`. -/
theorem c7_generic_properties_roundtrip :
    (∀ (i : Nat) (e : TSSetting) (st : FState) (n cn pn : String)
       (o : TSObj) (cv pv : Option Nat),
      e.name = some n → lookupKey i st.tsHeap = some o →
      e.clock = some cn → lookupKey cn st.clockList = some cv →
      e.pointRecord = some pn → lookupKey pn st.pointRecordList = some pv →
      (setGenericTimeSeriesProperties i e st).1 = Except.ok () ∧
      lookupKey i ((setGenericTimeSeriesProperties i e st).2).tsHeap =
        some { o with
               name := n
               units := match e.units with
                 | some u => RtxUnits.unitOfType u
                 | none => RtxUnits.dimensionless
               clock := some cv
               record := some pv }) ∧
    (∀ (r : RecordSetting) (st : FState) (nm rel cp : String),
      r.name = some nm → r.path = some rel → r.configPath = some cp →
      (createCsvPointRecord r st).1 = Except.ok (some st.nextId) ∧
      lookupKey st.nextId ((createCsvPointRecord r st).2).prHeap =
        some { kind := PRKind.csv
               readOnly := match r.readonly with | some b => b | none => false
               path := some (pathJoin (parentPath cp) rel) }) := by
  constructor
  · intro i e st n cn pn o cv pv hn hh hc hcv hp hpv
    rw [setGeneric_eq i e st n hn]
    refine ⟨rfl, ?_⟩
    simp [lookupKey_heapModify_self, hh, hc, hp,
      mapSubscript_found hcv, mapSubscript_found hpv]
  · intro r st nm rel cp hn hp hc
    cases hro : r.readonly <;>
      simp [createCsvPointRecord, hn, hp, hc, hro, heapModify_heapModify,
        lookupKey_heapModify_self, lookupKey_mapInsert_self]

/-- C7 witness: a moving-average-style declaration with declared units,
clock and point record against populated tables, and the spec §8 flat-file
scenario rooted at `dir/data`. -/
theorem c7_witness :
    (lookupKey 0
      ((setGenericTimeSeriesProperties 0
        { name := some "avg", units := some "MGD", clock := some "5min",
          pointRecord := some "hist" }
        { FState.init with
          nextId := 3
          tsHeap := [(0, { kind := TSKind.movingAverage })]
          clockList := [("5min", some 1)]
          pointRecordList := [("hist", some 2)] }).2).tsHeap =
      some { kind := TSKind.movingAverage, name := "avg"
             units := RtxUnits.unitOfType "MGD"
             clock := some (some 1), record := some (some 2) }) ∧
    lookupKey 0
      ((createCsvPointRecord
        { name := some "hist", path := some "data",
          configPath := some "dir/config.cfg" } FState.init).2).prHeap =
      some { kind := PRKind.csv, readOnly := false, path := some "dir/data" } := by
  constructor
  · exact (c7_generic_properties_roundtrip.1 0
      { name := some "avg", units := some "MGD", clock := some "5min",
        pointRecord := some "hist" }
      { FState.init with
        nextId := 3
        tsHeap := [(0, { kind := TSKind.movingAverage })]
        clockList := [("5min", some 1)]
        pointRecordList := [("hist", some 2)] }
      "avg" "5min" "hist" { kind := TSKind.movingAverage } (some 1) (some 2)
      (by decide) (by decide) (by decide) (by decide) (by decide) (by decide)).2
  · have h := (c7_generic_properties_roundtrip.2
      { name := some "hist", path := some "data",
        configPath := some "dir/config.cfg" } FState.init
      "hist" "data" "dir/config.cfg" (by decide) (by decide) (by decide)).2
    revert h
    decide

end ClaimBatchTwo

section AggregatorLemmas

open ConfigFactory

theorem mapInsert_self_of_lookup {κ α : Type} [DecidableEq κ] {k : κ} {v : α}
    {m : List (κ × α)} (h : lookupKey k m = some v) : mapInsert k v m = m := by
  induction m with
  | nil => simp [lookupKey] at h
  | cons p rest ih =>
      obtain ⟨a, b⟩ := p
      by_cases h1 : a = k
      · subst h1
        simp [lookupKey] at h
        simp [mapInsert, h]
      · simp [lookupKey, h1] at h
        simp [mapInsert, h1, ih h]

theorem heapModify_of_id {γ : Type} (i : Nat) {f : γ → γ}
    (hf : ∀ o, f o = o) (h : List (Nat × γ)) : heapModify i f h = h := by
  rw [heapModify]
  cases hl : lookupKey i h with
  | none => rfl
  | some o =>
      show mapInsert i (f o) h = h
      rw [hf]
      exact mapInsert_self_of_lookup hl

@[simp] theorem attachedPairs_nil (m : List (String × Option Nat)) :
    attachedPairs m [] = [] := rfl

@[simp] theorem missingSourceDiags_nil (m : List (String × Option Nat))
    (tsName : String) : missingSourceDiags m tsName [] = [] := rfl

theorem attachedPairs_cons_found {m : List (String × Option Nat)} {nm : String}
    {v : Option Nat} (w : ℚ) (l : List (String × ℚ))
    (h : lookupKey nm m = some v) :
    attachedPairs m ((nm, w) :: l) = (v, w) :: attachedPairs m l := by
  simp [attachedPairs, List.filterMap_cons, h]

theorem attachedPairs_cons_missing {m : List (String × Option Nat)} {nm : String}
    (w : ℚ) (l : List (String × ℚ)) (h : lookupKey nm m = none) :
    attachedPairs m ((nm, w) :: l) = attachedPairs m l := by
  simp [attachedPairs, List.filterMap_cons, h]

theorem missingSourceDiags_cons_found {m : List (String × Option Nat)}
    {nm : String} {v : Option Nat} (tsName : String) (w : ℚ)
    (l : List (String × ℚ)) (h : lookupKey nm m = some v) :
    missingSourceDiags m tsName ((nm, w) :: l) = missingSourceDiags m tsName l := by
  simp [missingSourceDiags, List.filter_cons, h]

theorem missingSourceDiags_cons_missing {m : List (String × Option Nat)}
    {nm : String} (tsName : String) (w : ℚ) (l : List (String × ℚ))
    (h : lookupKey nm m = none) :
    missingSourceDiags m tsName ((nm, w) :: l) =
      Diag.cannotLocateSourceTimeSeries nm tsName :: missingSourceDiags m tsName l := by
  simp [missingSourceDiags, List.filter_cons, h]

theorem attachedPairs_append (m : List (String × Option Nat))
    (l1 l2 : List (String × ℚ)) :
    attachedPairs m (l1 ++ l2) = attachedPairs m l1 ++ attachedPairs m l2 := by
  simp [attachedPairs, List.filterMap_append]

theorem missingSourceDiags_append (m : List (String × Option Nat))
    (tsName : String) (l1 l2 : List (String × ℚ)) :
    missingSourceDiags m tsName (l1 ++ l2) =
      missingSourceDiags m tsName l1 ++ missingSourceDiags m tsName l2 := by
  simp [missingSourceDiags, List.filter_append]

theorem attachedPairs_length_of_found {m : List (String × Option Nat)}
    {l : List (String × ℚ)}
    (h : ∀ p ∈ l, (lookupKey p.1 m).isSome = true) :
    (attachedPairs m l).length = l.length := by
  induction l with
  | nil => rfl
  | cons p rest ih =>
      obtain ⟨nm, w⟩ := p
      have hp := h (nm, w) (List.mem_cons_self _ _)
      cases hl : lookupKey nm m with
      | none => rw [hl] at hp; simp at hp
      | some v =>
          rw [attachedPairs_cons_found w rest hl]
          simp only [List.length_cons]
          rw [ih (fun q hq => h q (List.mem_cons_of_mem _ hq))]

theorem missingSourceDiags_nil_of_found {m : List (String × Option Nat)}
    {tsName : String} {l : List (String × ℚ)}
    (h : ∀ p ∈ l, (lookupKey p.1 m).isSome = true) :
    missingSourceDiags m tsName l = [] := by
  induction l with
  | nil => rfl
  | cons p rest ih =>
      obtain ⟨nm, w⟩ := p
      have hp := h (nm, w) (List.mem_cons_self _ _)
      cases hl : lookupKey nm m with
      | none => rw [hl] at hp; simp at hp
      | some v =>
          rw [missingSourceDiags_cons_found tsName w rest hl]
          exact ih (fun q hq => h q (List.mem_cons_of_mem _ hq))

/-- Full characterization of the aggregator source-attachment loop run
through a live dependent pointer: it never fails, appends one attached
(pointer, weight) pair per resolvable source name, and emits one diagnostic
per unresolvable one. -/
theorem attachAgg_eq (ts : Nat) (tsName : String) :
    ∀ (l : List (String × ℚ)) (st : FState),
    attachAggSources (some ts) tsName l st =
      (Except.ok (),
       { st with
         tsHeap := heapModify ts (fun o =>
           { o with aggSources :=
               o.aggSources ++ attachedPairs st.timeSeriesList l }) st.tsHeap
         diags := st.diags ++ missingSourceDiags st.timeSeriesList tsName l }) := by
  intro l
  induction l with
  | nil =>
      intro st
      have h1 : (fun o : TSObj =>
          { o with aggSources :=
              o.aggSources ++ attachedPairs st.timeSeriesList [] }) = fun o => o := by
        funext o
        simp
      rw [h1]
      simp [attachAggSources, heapModify_of_id ts (fun o => rfl)]
  | cons p rest ih =>
      intro st
      obtain ⟨nm, w⟩ := p
      cases hl : lookupKey nm st.timeSeriesList with
      | none =>
          rw [attachedPairs_cons_missing w rest hl,
            missingSourceDiags_cons_missing tsName w rest hl]
          simp [attachAggSources, hl, ih]
      | some v =>
          rw [attachedPairs_cons_found w rest hl,
            missingSourceDiags_cons_found tsName w rest hl]
          simp only [attachAggSources, run_bind, run_get]
          rw [hl]
          simp [ih, heapModify_heapModify, List.append_assoc]

end AggregatorLemmas

section ClaimAggregator

open ConfigFactory

/-- C3: an aggregator node whose weighted source list has exactly one name
`k` absent from the completed node table: the resolution pass succeeds,
emits exactly one diagnostic (naming `k` and the dependent), attaches the
entries before *and after* the missing one — `N - 1` edges in total, with
their recorded weights — and nothing else. -/
theorem c3_aggregator_missing_source :
    ∀ (st : FState) (aggName : String) (i : Nat) (o : TSObj)
      (l1 l2 : List (String × ℚ)) (k : String) (w : ℚ),
      lookupKey aggName st.timeSeriesList = some (some i) →
      lookupKey i st.tsHeap = some o →
      (∀ p ∈ l1 ++ l2, (lookupKey p.1 st.timeSeriesList).isSome = true) →
      lookupKey k st.timeSeriesList = none →
      (connectAggregators [(aggName, l1 ++ (k, w) :: l2)] st).1 = Except.ok () ∧
      ((connectAggregators [(aggName, l1 ++ (k, w) :: l2)] st).2).diags =
        st.diags ++ [Diag.cannotLocateSourceTimeSeries k aggName] ∧
      lookupKey i ((connectAggregators [(aggName, l1 ++ (k, w) :: l2)] st).2).tsHeap =
        some { o with aggSources := o.aggSources ++
          (attachedPairs st.timeSeriesList l1 ++ attachedPairs st.timeSeriesList l2) } ∧
      (attachedPairs st.timeSeriesList l1 ++
        attachedPairs st.timeSeriesList l2).length = l1.length + l2.length := by
  intro st aggName i o l1 l2 k w hdep ho hfound hmiss
  have hf1 : ∀ p ∈ l1, (lookupKey p.1 st.timeSeriesList).isSome = true :=
    fun p hp => hfound p (List.mem_append_left _ hp)
  have hf2 : ∀ p ∈ l2, (lookupKey p.1 st.timeSeriesList).isSome = true :=
    fun p hp => hfound p (List.mem_append_right _ hp)
  have hrun : connectAggregators [(aggName, l1 ++ (k, w) :: l2)] st =
      (Except.ok (),
       { st with
         tsHeap := heapModify i (fun o2 =>
           { o2 with aggSources := o2.aggSources ++
               attachedPairs st.timeSeriesList (l1 ++ (k, w) :: l2) }) st.tsHeap
         diags := st.diags ++
           missingSourceDiags st.timeSeriesList aggName (l1 ++ (k, w) :: l2) }) := by
    simp only [connectAggregators, run_bind, run_get]
    rw [hdep]
    simp [attachAgg_eq]
  rw [hrun]
  have hap : attachedPairs st.timeSeriesList (l1 ++ (k, w) :: l2) =
      attachedPairs st.timeSeriesList l1 ++ attachedPairs st.timeSeriesList l2 := by
    rw [attachedPairs_append, attachedPairs_cons_missing w l2 hmiss]
  have hmd : missingSourceDiags st.timeSeriesList aggName (l1 ++ (k, w) :: l2) =
      [Diag.cannotLocateSourceTimeSeries k aggName] := by
    rw [missingSourceDiags_append, missingSourceDiags_cons_missing aggName w l2 hmiss,
      missingSourceDiags_nil_of_found hf1, missingSourceDiags_nil_of_found hf2]
    rfl
  refine ⟨rfl, by simp [hmd], ?_, ?_⟩
  · rw [hap]
    simp [lookupKey_heapModify_self, ho]
  · rw [List.length_append, attachedPairs_length_of_found hf1,
      attachedPairs_length_of_found hf2]

/-- C3 witness: the spec §8 scenario — aggregator "total" with sources
`[("a", 1), ("b", 2)]` where "b" is never declared: exactly one attached
edge (the node named "a", weight 1) and one diagnostic naming "b". -/
theorem c3_witness :
    ((connectAggregators [("total", [("a", 1), ("b", 2)])]
      { FState.init with
        nextId := 2
        tsHeap := [(0, { kind := TSKind.timeSeries, name := "a" }),
                   (1, { kind := TSKind.aggregator, name := "total" })]
        timeSeriesList := [("a", some 0), ("total", some 1)] }).2).diags =
      [Diag.cannotLocateSourceTimeSeries "b" "total"] ∧
    lookupKey 1 ((connectAggregators [("total", [("a", 1), ("b", 2)])]
      { FState.init with
        nextId := 2
        tsHeap := [(0, { kind := TSKind.timeSeries, name := "a" }),
                   (1, { kind := TSKind.aggregator, name := "total" })]
        timeSeriesList := [("a", some 0), ("total", some 1)] }).2).tsHeap =
      some { kind := TSKind.aggregator, name := "total",
             aggSources := [(some 0, 1)] } := by
  have h := c3_aggregator_missing_source
    { FState.init with
      nextId := 2
      tsHeap := [(0, { kind := TSKind.timeSeries, name := "a" }),
                 (1, { kind := TSKind.aggregator, name := "total" })]
      timeSeriesList := [("a", some 0), ("total", some 1)] }
    "total" 1 { kind := TSKind.aggregator, name := "total" }
    [("a", 1)] [] "b" 2
    (by decide) (by decide) (by decide) (by decide)
  have h2 := h.2.1
  have h3 := h.2.2.1
  constructor
  · revert h2
    decide
  · revert h3
    decide

theorem parseAgg_spec (l : List AggSource) :
    ∀ (st st2 : FState) (r : Except CfgErr (List (String × ℚ))),
      parseAggSourceList l st = (r, st2) →
      st2 = st ∧
      ∀ ps, r = Except.ok ps →
        ps.length = l.length ∧
        ∀ (j : Nat) (hj : j < l.length) (hj' : j < ps.length),
          (l.get ⟨j, hj⟩).multiplier = none →
          ∃ nm, (l.get ⟨j, hj⟩).source = some nm ∧ ps.get ⟨j, hj'⟩ = (nm, 1) := by
  induction l with
  | nil =>
      intro st st2 r h
      simp only [parseAggSourceList, run_M_pure] at h
      rw [Prod.mk.injEq] at h
      obtain ⟨h1, h2⟩ := h
      subst h1
      subst h2
      refine ⟨rfl, ?_⟩
      intro ps hps
      injection hps with hps
      subst hps
      exact ⟨rfl, fun j hj => absurd hj (Nat.not_lt_zero j)⟩
  | cons s rest ih =>
      intro st st2 r h
      cases hs : s.source with
      | none =>
          simp only [parseAggSourceList, hs, run_bind, run_req_none] at h
          rw [Prod.mk.injEq] at h
          obtain ⟨h1, h2⟩ := h
          subst h1
          subst h2
          exact ⟨rfl, fun ps hps => Except.noConfusion hps⟩
      | some nm =>
          simp only [parseAggSourceList, hs, run_bind, run_req_some] at h
          split at h
          next a st3 heq =>
              obtain ⟨hst3, hprops⟩ := ih st st3 (Except.ok a) heq
              subst hst3
              simp only [run_M_pure] at h
              rw [Prod.mk.injEq] at h
              obtain ⟨h1, h2⟩ := h
              subst h1
              subst h2
              refine ⟨rfl, ?_⟩
              intro ps hps
              injection hps with hps
              subst hps
              obtain ⟨hlen, hget⟩ := hprops a rfl
              refine ⟨by simp [hlen], ?_⟩
              intro j hj hj' hmult
              cases j with
              | zero =>
                  refine ⟨nm, hs, ?_⟩
                  simp only [List.get] at hmult ⊢
                  simp [hmult]
              | succ j' =>
                  exact hget j' (Nat.lt_of_succ_lt_succ hj)
                    (Nat.lt_of_succ_lt_succ hj') hmult
          next err st3 heq =>
              obtain ⟨hst3, _⟩ := ih st st3 (Except.error err) heq
              subst hst3
              rw [Prod.mk.injEq] at h
              obtain ⟨h1, h2⟩ := h
              subst h1
              subst h2
              exact ⟨rfl, fun ps hps => Except.noConfusion hps⟩

/-- C10: (a) in `createAggregator`, every source entry lacking a
`multiplier` field is recorded in `_timeSeriesAggregationSourceList` with
weight exactly 1; (b) the resolution pass attaches a recorded (name, 1) pair
as an edge with weight exactly 1. -/
theorem c10_default_weight_one :
    (∀ (e : TSSetting) (st st' : FState) (n : String) (l : List AggSource) (i : Nat),
      e.name = some n → e.sources = some l →
      createAggregator e st = (Except.ok (some i), st') →
      ∃ ps, lookupKey n st'.aggregationSourceList = some ps ∧
        ps.length = l.length ∧
        ∀ (j : Nat) (hj : j < l.length) (hj' : j < ps.length),
          (l.get ⟨j, hj⟩).multiplier = none →
          ∃ nm, (l.get ⟨j, hj⟩).source = some nm ∧ ps.get ⟨j, hj'⟩ = (nm, 1)) ∧
    (∀ (st : FState) (ts : Nat) (tsName nm : String) (v : Option Nat) (o : TSObj),
      lookupKey nm st.timeSeriesList = some v →
      lookupKey ts st.tsHeap = some o →
      lookupKey ts ((attachAggSources (some ts) tsName [(nm, 1)] st).2).tsHeap =
        some { o with aggSources := o.aggSources ++ [(v, 1)] }) := by
  constructor
  · intro e st st' n l i hn hl hrun
    simp only [createAggregator, run_bind, run_allocTS] at hrun
    rw [setGeneric_eq st.nextId e _ n hn] at hrun
    simp only [hl, run_req_some, run_bind] at hrun
    split at hrun
    next ps st2 heq =>
        obtain ⟨hst2, hprops⟩ := parseAgg_spec l _ _ _ heq
        subst hst2
        simp only [run_bind, run_tsObjName, run_modifyF, run_M_pure] at hrun
        simp only [lookupKey_heapModify_self, lookupKey_mapInsert_self,
          Option.map_some', Option.getD_some, Prod.mk.injEq] at hrun
        obtain ⟨h1, h2⟩ := hrun
        injection h1 with h1
        injection h1 with h1
        subst h1
        subst h2
        obtain ⟨hlen, hget⟩ := hprops ps rfl
        refine ⟨ps, by simp [lookupKey_mapInsert_self], hlen, hget⟩
    next err st2 heq =>
        simp at hrun
  · intro st ts tsName nm v o hnm ho
    rw [attachAgg_eq]
    simp [lookupKey_heapModify_self, ho, attachedPairs_cons_found 1 [] hnm]

/-- C10 witness: a one-entry aggregator source list with no multiplier
field. -/
theorem c10_witness :
    ∃ ps, lookupKey "total"
        ((createAggregator
          { name := some "total", type := some "Aggregator",
            sources := some [{ source := some "a" }] }
          FState.init).2).aggregationSourceList = some ps ∧
      ps.length = ([{ source := some "a" }] : List AggSource).length ∧
      ∀ (j : Nat) (hj : j < ([{ source := some "a" }] : List AggSource).length)
        (hj' : j < ps.length),
        (([{ source := some "a" }] : List AggSource).get ⟨j, hj⟩).multiplier = none →
        ∃ nm, (([{ source := some "a" }] : List AggSource).get ⟨j, hj⟩).source = some nm ∧
          ps.get ⟨j, hj'⟩ = (nm, 1) :=
  c10_default_weight_one.1
    { name := some "total", type := some "Aggregator",
      sources := some [{ source := some "a" }] }
    FState.init
    ((createAggregator
      { name := some "total", type := some "Aggregator",
        sources := some [{ source := some "a" }] } FState.init).2)
    "total" [{ source := some "a" }] 0 rfl rfl
    (Prod.ext (by decide) rfl)

end ClaimAggregator

section AppendLemmas

open ConfigFactory

theorem M_bind_assoc {α β γ : Type} (x : M α) (f : α → M β) (g : β → M γ) :
    ((x >>= f) >>= g) = (x >>= fun a => f a >>= g) := by
  funext st
  simp only [run_bind]
  rcases hx : x st with ⟨r, st1⟩
  cases r <;> rfl

theorem createClocks_append : ∀ (g g' : List ClockSetting),
    createClocks (g ++ g') = (createClocks g >>= fun _ => createClocks g') := by
  intro g g'
  induction g with
  | nil =>
      funext st
      simp [createClocks]
  | cons c rest ih =>
      simp only [List.cons_append, List.append_eq, createClocks, ih, M_bind_assoc]

theorem buildTSE_append : ∀ (g g' : List TSSetting) (st : FState),
    buildTimeSeriesEntries (g ++ g') st =
      (buildTimeSeriesEntries g >>= fun _ => buildTimeSeriesEntries g') st := by
  intro g g'
  induction g with
  | nil =>
      intro st
      simp [buildTimeSeriesEntries]
  | cons e rest ih =>
      intro st
      cases hn : e.name with
      | none => simp [buildTimeSeriesEntries, hn]
      | some n =>
          simp only [List.cons_append, buildTimeSeriesEntries, run_bind, hn,
            run_req_some]
          rcases hct : createTimeSeriesOfType e st with ⟨r, st2⟩
          cases r with
          | error err => rfl
          | ok v =>
              cases v with
              | some i => simp [ih]
              | none => simp [ih]

theorem createPRFrom_append : ∀ (g g' : List RecordSetting) (i : Nat) (st : FState),
    createPointRecordsFrom i (g ++ g') st =
      (createPointRecordsFrom i g >>= fun _ =>
        createPointRecordsFrom (i + g.length) g') st := by
  intro g g'
  induction g with
  | nil =>
      intro i st
      simp [createPointRecordsFrom]
  | cons r rest ih =>
      intro i st
      have hadd : (i + 1) + rest.length = i + (rest.length + 1) := by omega
      simp only [List.cons_append, createPointRecordsFrom, run_bind, run_get,
        List.length_cons]
      rcases hct : createPointRecordOfType
          { r with configPath := some st.configPath } st with ⟨rr, st2⟩
      cases rr with
      | error err => rfl
      | ok v =>
          cases v with
          | some j => simp [ih, hadd]
          | none => simp [ih, hadd]

end AppendLemmas

section ClaimLastWriteWins

open ConfigFactory

/-- C8: duplicate names raise no error at parse time; the later entry's
object wins.  For each namespace — clocks, point records, time series — if
the entries before the final one process successfully (whatever names they
declare, duplicates of `n` included) and the final entry declares name `n`
and constructs object `i`, then the final table binds `n` to exactly that
last object. -/
theorem c8_last_write_wins :
    (∀ (g : List ClockSetting) (c : ClockSetting) (n : String) (p : Int)
       (st st1 : FState),
      c.name = some n → c.period = some p →
      createClocks g st = (Except.ok (), st1) →
      createClocks (g ++ [c]) st =
        (Except.ok (),
         { st1 with
           nextId := st1.nextId + 1
           clockHeap := mapInsert st1.nextId { period := p } st1.clockHeap
           clockList := mapInsert n (some st1.nextId) st1.clockList }) ∧
      lookupKey n ((createClocks (g ++ [c]) st).2).clockList =
        some (some st1.nextId) ∧
      lookupKey st1.nextId ((createClocks (g ++ [c]) st).2).clockHeap =
        some { period := p }) ∧
    (∀ (g : List RecordSetting) (r : RecordSetting) (n : String)
       (st st1 st2 : FState) (i : Nat),
      r.name = some n →
      createPointRecords g st = (Except.ok (), st1) →
      createPointRecordOfType { r with configPath := some st1.configPath } st1 =
        (Except.ok (some i), st2) →
      createPointRecords (g ++ [r]) st =
        (Except.ok (),
         { st2 with pointRecordList := mapInsert n (some i) st2.pointRecordList }) ∧
      lookupKey n ((createPointRecords (g ++ [r]) st).2).pointRecordList =
        some (some i)) ∧
    (∀ (g : List TSSetting) (e : TSSetting) (n : String)
       (st st1 st2 : FState) (i : Nat),
      e.name = some n →
      buildTimeSeriesEntries g st = (Except.ok (), st1) →
      createTimeSeriesOfType e st1 = (Except.ok (some i), st2) →
      buildTimeSeriesEntries (g ++ [e]) st =
        (Except.ok (),
         { st2 with timeSeriesList := mapInsert n (some i) st2.timeSeriesList }) ∧
      lookupKey n ((buildTimeSeriesEntries (g ++ [e]) st).2).timeSeriesList =
        some (some i)) := by
  refine ⟨?_, ?_, ?_⟩
  · intro g c n p st st1 hn hp hrun
    have heq : createClocks (g ++ [c]) st =
        (Except.ok (),
         { st1 with
           nextId := st1.nextId + 1
           clockHeap := mapInsert st1.nextId { period := p } st1.clockHeap
           clockList := mapInsert n (some st1.nextId) st1.clockList }) := by
      rw [createClocks_append g [c]]
      simp [run_bind, hrun, createClocks, hn, hp]
    refine ⟨heq, ?_, ?_⟩ <;> rw [heq] <;> simp
  · intro g r n st st1 st2 i hn hrun hone
    have heq : createPointRecords (g ++ [r]) st =
        (Except.ok (),
         { st2 with pointRecordList := mapInsert n (some i) st2.pointRecordList }) := by
      rw [createPointRecords, createPRFrom_append g [r] 0 st]
      rw [createPointRecords] at hrun
      rw [hn] at hone
      simp [run_bind, hrun, createPointRecordsFrom, hn, hone]
    refine ⟨heq, ?_⟩
    rw [heq]
    simp
  · intro g e n st st1 st2 i hn hrun hone
    have heq : buildTimeSeriesEntries (g ++ [e]) st =
        (Except.ok (),
         { st2 with timeSeriesList := mapInsert n (some i) st2.timeSeriesList }) := by
      rw [buildTSE_append g [e] st]
      simp [run_bind, hrun, buildTimeSeriesEntries, hn, hone]
    refine ⟨heq, ?_⟩
    rw [heq]
    simp

/-- C8 witness: two clocks named "c" (periods 300 then 600), two CSV records
named "hist", and two time series named "x" — in each namespace the final
table holds the object built from the second (later) declaration. -/
theorem c8_witness :
    (lookupKey "c" ((createClocks
        [{ name := some "c", period := some 300 },
         { name := some "c", period := some 600 }] FState.init).2).clockList =
      some (some 1) ∧
     lookupKey 1 ((createClocks
        [{ name := some "c", period := some 300 },
         { name := some "c", period := some 600 }] FState.init).2).clockHeap =
      some { period := 600 }) ∧
    lookupKey "x" ((buildTimeSeriesEntries
        [{ name := some "x", type := some "TimeSeries" },
         { name := some "x", type := some "Resampler" }] FState.init).2).timeSeriesList =
      some (some 1) := by
  constructor
  · have h := (c8_last_write_wins.1)
      [{ name := some "c", period := some 300 }]
      { name := some "c", period := some 600 } "c" 600 FState.init
      ((createClocks [{ name := some "c", period := some 300 }] FState.init).2)
      rfl rfl (Prod.ext (by decide) rfl)
    have h1 := h.2.1
    have h2 := h.2.2
    constructor
    · revert h1
      decide
    · revert h2
      decide
  · have h := (c8_last_write_wins.2.2)
      [{ name := some "x", type := some "TimeSeries" }]
      { name := some "x", type := some "Resampler" } "x" FState.init
      ((buildTimeSeriesEntries [{ name := some "x", type := some "TimeSeries" }]
        FState.init).2)
      ((createTimeSeriesOfType { name := some "x", type := some "Resampler" }
        ((buildTimeSeriesEntries [{ name := some "x", type := some "TimeSeries" }]
          FState.init).2)).2)
      1 rfl (Prod.ext (by decide) rfl) (Prod.ext (by decide) rfl)
    have h1 := h.2
    revert h1
    decide

end ClaimLastWriteWins

section Phase1Invariant

open ConfigFactory

theorem buildStep_refl (st : FState) : BuildStep st st :=
  ⟨rfl, le_refl _, fun _ h => h, fun h => h⟩

theorem buildStep_trans {st1 st2 st3 : FState} (h1 : BuildStep st1 st2)
    (h2 : BuildStep st2 st3) : BuildStep st1 st3 :=
  ⟨h2.1.trans h1.1, h1.2.1.trans h2.2.1,
   fun j hj => h2.2.2.1 j (h1.2.2.1 j hj),
   fun hk => h2.2.2.2 (h1.2.2.2 hk)⟩

theorem isSome_lookupKey_mapInsert {κ α : Type} [DecidableEq κ] (k j : κ)
    (v : α) (m : List (κ × α)) (h : (lookupKey j m).isSome = true) :
    (lookupKey j (mapInsert k v m)).isSome = true := by
  by_cases hjk : j = k
  · subst hjk
    simp [lookupKey_mapInsert_self]
  · rw [lookupKey_mapInsert_ne k j v m hjk]
    exact h

theorem buildStep_allocTS (o : TSObj) (st : FState) :
    BuildStep st ((M.allocTS o) st).2 := by
  refine ⟨rfl, by simp, ?_, fun h => h⟩
  intro j hj
  exact isSome_lookupKey_mapInsert st.nextId j o st.tsHeap hj

theorem buildStep_setGeneric (i : Nat) (e : TSSetting) (st : FState) :
    BuildStep st ((setGenericTimeSeriesProperties i e st)).2 := by
  cases hn : e.name with
  | none =>
      rw [setGeneric_err i e st hn]
      exact buildStep_refl st
  | some n =>
      rw [setGeneric_eq i e st n hn]
      refine ⟨rfl, le_refl _, ?_, ?_⟩
      · intro j hj
        simp only [isSome_lookupKey_heapModify]
        exact hj
      · intro hk
        cases hs : e.source with
        | none => simpa [hs] using hk
        | some srcName =>
            simp only [hs]
            exact keysDistinct_mapInsert n srcName hk

theorem modifyTS_buildStep (i : Nat) (f : TSObj → TSObj) (st : FState) :
    BuildStep st ((M.modifyTS i f) st).2 := by
  refine ⟨rfl, le_refl _, ?_, fun h => h⟩
  intro j hj
  simp only [run_modifyTS, isSome_lookupKey_heapModify]
  exact hj

theorem setGeneric_nextId (i : Nat) (e : TSSetting) (st : FState) :
    ((setGenericTimeSeriesProperties i e st)).2.nextId = st.nextId := by
  cases hn : e.name with
  | none => rw [setGeneric_err i e st hn]
  | some n => rw [setGeneric_eq i e st n hn]

/-- The common shell of every time-series constructor: allocate, set the
generic properties, then run the kind-specific tail. -/
theorem creatorOK_shell (kind : TSKind) (e : TSSetting) (st : FState)
    (tail : Nat → M (Option Nat)) (htail : ∀ ts, TailOK ts (tail ts)) :
    CreatorOK st ((M.allocTS { kind := kind } >>= fun ts =>
      setGenericTimeSeriesProperties ts e >>= fun _ => tail ts) st) := by
  simp only [run_bind, run_allocTS]
  cases hn : e.name with
  | none =>
      rw [setGeneric_err _ e _ hn]
      exact ⟨buildStep_allocTS _ st, fun i hi => by simp at hi⟩
  | some n =>
      have hBSa : BuildStep st
          ({ st with
             nextId := st.nextId + 1
             tsHeap := mapInsert st.nextId { kind := kind } st.tsHeap } : FState) :=
        buildStep_allocTS { kind := kind } st
      rw [setGeneric_eq _ e _ n hn]
      obtain ⟨ht1, ht2, ht3, ht4, ht5⟩ := htail st.nextId
        ((setGenericTimeSeriesProperties st.nextId e
          { st with
            nextId := st.nextId + 1
            tsHeap := mapInsert st.nextId { kind := kind } st.tsHeap }).2)
      rw [setGeneric_eq _ e _ n hn] at ht1 ht2 ht3 ht4 ht5
      have hBSg : BuildStep st
          ((setGenericTimeSeriesProperties st.nextId e
            { st with
              nextId := st.nextId + 1
              tsHeap := mapInsert st.nextId { kind := kind } st.tsHeap }).2) :=
        buildStep_trans hBSa (buildStep_setGeneric st.nextId e _)
      rw [setGeneric_eq _ e _ n hn] at hBSg
      constructor
      · exact buildStep_trans hBSg ⟨ht1, le_of_eq ht2.symm, ht3, ht4⟩
      · intro i hi
        have hv := ht5 (some i) hi
        injection hv with hv
        subst hv
        refine ⟨le_refl _, ?_, ?_⟩
        · rw [ht2]
          simp [setGeneric_nextId]
        · apply ht3
          simp only [isSome_lookupKey_heapModify]
          simp

theorem tailOK_pure (ts : Nat) : TailOK ts (M.pure (some ts)) := by
  intro st
  exact ⟨rfl, rfl, fun _ h => h, fun h => h,
    fun v hv => by injection hv with h; exact h.symm⟩

theorem tailOK_modifyTS_pure (ts : Nat) (f : TSObj → TSObj) :
    TailOK ts (M.modifyTS ts f >>= fun _ => M.pure (some ts)) := by
  intro st
  refine ⟨rfl, rfl, ?_, fun h => h,
    fun v hv => by injection hv with h; exact h.symm⟩
  intro j hj
  simp only [run_bind, run_modifyTS, run_M_pure, isSome_lookupKey_heapModify]
  exact hj

theorem tailOK_createTimeSeries (ts : Nat) (e : TSSetting) :
    TailOK ts (M.pure (some ts)) := tailOK_pure ts

theorem tailOK_movingAverage (e : TSSetting) (ts : Nat) :
    TailOK ts (M.req e.window "window" >>= fun window =>
      M.modifyTS ts (fun o => { o with windowSize := some window }) >>= fun _ =>
      M.pure (some ts)) := by
  intro st
  cases hw : e.window with
  | none =>
      refine ⟨by simp [hw], by simp [hw], fun j hj => by simpa [hw] using hj,
        fun hk => by simpa [hw] using hk, fun v hv => by simp [hw] at hv⟩
  | some w =>
      refine ⟨by simp [hw], by simp [hw],
        fun j hj => by simpa [hw, isSome_lookupKey_heapModify] using hj,
        fun hk => by simpa [hw] using hk, fun v hv => ?_⟩
      simp [hw] at hv
      first | exact hv.symm | exact hv

theorem tailOK_optValue (ts : Nat) (v : Option NumVal) (f : ℚ → TSObj → TSObj) :
    TailOK ts ((fun jp : Unit → M (Option Nat) =>
      match v with
      | some _ => M.modifyTS ts (f (getConfigDouble v)) >>= jp
      | none => M.pure () >>= jp) (fun _ => M.pure (some ts))) := by
  intro st
  cases v with
  | none =>
      refine ⟨by simp, by simp, fun j hj => by simpa using hj,
        fun hk => by simpa using hk, fun w hw => ?_⟩
      simp at hw
      first | exact hw.symm | exact hw
  | some u =>
      refine ⟨by simp, by simp,
        fun j hj => by simpa [isSome_lookupKey_heapModify] using hj,
        fun hk => by simpa using hk, fun w hw => ?_⟩
      simp at hw
      first | exact hw.symm | exact hw

theorem tailOK_multiplier (e : TSSetting) (ts : Nat) :
    TailOK ts ((fun jp : Unit → M (Option Nat) =>
      match e.multiplier with
      | some basis => (M.modifyF fun st =>
          { st with multiplierBasisList := mapInsert ts basis st.multiplierBasisList }) >>= jp
      | none => M.pure () >>= jp) (fun _ => M.pure (some ts))) := by
  intro st
  cases e.multiplier with
  | none =>
      refine ⟨by simp, by simp, fun j hj => by simpa using hj,
        fun hk => by simpa using hk, fun w hw => ?_⟩
      simp at hw
      first | exact hw.symm | exact hw
  | some basis =>
      refine ⟨by simp, by simp, fun j hj => by simpa using hj,
        fun hk => by simpa using hk, fun w hw => ?_⟩
      simp at hw
      first | exact hw.symm | exact hw

theorem tailOK_aggregator (e : TSSetting) (ts : Nat) :
    TailOK ts (M.req e.sources "sources" >>= fun sources =>
      parseAggSourceList sources >>= fun sourceList =>
      M.tsObjName ts >>= fun name =>
      M.modifyF (fun s =>
        { s with aggregationSourceList := mapInsert name sourceList s.aggregationSourceList }) >>= fun _ =>
      M.pure (some ts)) := by
  intro st
  cases hs : e.sources with
  | none =>
      refine ⟨by simp [hs], by simp [hs], fun j hj => by simpa [hs] using hj,
        fun hk => by simpa [hs] using hk, fun v hv => by simp [hs] at hv⟩
  | some l =>
      simp only [hs, run_bind, run_req_some]
      rcases hp : parseAggSourceList l st with ⟨r, st2⟩
      have hst2 : st2 = st := (parseAgg_spec l st st2 r hp).1
      subst hst2
      cases r with
      | error err =>
          refine ⟨rfl, rfl, fun _ h => h, fun h => h, fun v hv => by simp at hv⟩
      | ok ps =>
          refine ⟨by simp, by simp, fun j hj => by simpa using hj,
            fun hk => by simpa using hk, fun w hw => ?_⟩
          simp at hw
          first | exact hw.symm | exact hw

theorem addCC_state : ∀ (l : List CurvePoint) (ts : Nat) (st : FState),
    ((addCurveCoordinates ts l st)).1 = Except.ok () ∧
    ((addCurveCoordinates ts l st)).2.timeSeriesList = st.timeSeriesList ∧
    ((addCurveCoordinates ts l st)).2.nextId = st.nextId ∧
    (∀ j, (lookupKey j st.tsHeap).isSome = true →
      (lookupKey j ((addCurveCoordinates ts l st)).2.tsHeap).isSome = true) ∧
    ((addCurveCoordinates ts l st)).2.timeSeriesSourceList =
      st.timeSeriesSourceList := by
  intro l
  induction l with
  | nil =>
      intro ts st
      exact ⟨rfl, rfl, rfl, fun _ h => h, rfl⟩
  | cons c rest ih =>
      intro ts st
      cases hx : c.x with
      | none =>
          simpa [addCurveCoordinates, hx] using ih ts st
      | some xv =>
          cases hy : c.y with
          | none => simpa [addCurveCoordinates, hx, hy] using ih ts st
          | some yv =>
              simp only [addCurveCoordinates, hx, hy, run_bind, run_modifyTS,
                run_M_pure]
              obtain ⟨i1, i2, i3, i4, i5⟩ := ih ts
                { st with tsHeap := heapModify ts (fun o =>
                    { o with curve := o.curve ++
                      [(getConfigDouble (some xv), getConfigDouble (some yv))] }) st.tsHeap }
              refine ⟨i1, by simpa using i2, by simpa using i3, fun j hj => ?_,
                by simpa using i5⟩
              apply i4
              simpa [isSome_lookupKey_heapModify] using hj

theorem tailOK_curveFunction (e : TSSetting) (ts : Nat) :
    TailOK ts (M.modifyTS ts (fun o =>
        { o with inputUnits := some (match e.inputUnits with | some unitName => RtxUnits.unitOfType unitName | none => RtxUnits.dimensionless) }) >>= fun _ =>
      M.req e.function "function" >>= fun coordinates =>
      addCurveCoordinates ts coordinates >>= fun _ =>
      M.pure (some ts)) := by
  intro st
  cases hf : e.function with
  | none =>
      refine ⟨by simp [hf], by simp [hf],
        fun j hj => by simpa [hf, isSome_lookupKey_heapModify] using hj,
        fun hk => by simpa [hf] using hk, fun v hv => by simp [hf] at hv⟩
  | some coords =>
      simp only [run_bind, run_modifyTS, hf, run_req_some]
      obtain ⟨a1, a2, a3, a4, a5⟩ := addCC_state coords ts
        { st with tsHeap := heapModify ts (fun o =>
            { o with inputUnits := some (match e.inputUnits with | some unitName => RtxUnits.unitOfType unitName | none => RtxUnits.dimensionless) }) st.tsHeap }
      rcases hcc : addCurveCoordinates ts coords
        { st with tsHeap := heapModify ts (fun o =>
            { o with inputUnits := some (match e.inputUnits with | some unitName => RtxUnits.unitOfType unitName | none => RtxUnits.dimensionless) }) st.tsHeap } with ⟨rc, stc⟩
      rw [hcc] at a1 a2 a3 a4 a5
      simp only at a1 a2 a3 a4 a5
      subst a1
      refine ⟨by simpa using a2, by simpa using a3, fun j hj => ?_,
        fun hk => ?_, fun v hv => ?_⟩
      · exact a4 j (by simpa [isSome_lookupKey_heapModify] using hj)
      · simpa [a5] using hk
      · simp at hv
        first | exact hv.symm | exact hv

theorem tailOK_validRange (e : TSSetting) (ts : Nat) :
    TailOK ts (M.get >>= fun st =>
      (fun jp : Unit → M (Option Nat) =>
        match e.mode with
        | some mode =>
            if rtxStringsAreEqual mode "drop" then
              (M.modifyTS ts fun o => { o with mode := some VRMode.drop }) >>= jp
            else if rtxStringsAreEqual mode "saturate" then
              (M.modifyTS ts fun o => { o with mode := some VRMode.saturate }) >>= jp
            else
              M.emit (Diag.couldNotResolveMode mode) >>= jp
        | none => M.pure () >>= jp)
      (fun _ =>
        M.modifyTS ts (fun o =>
          { o with
            rangeMin :=
              match e.rangeMin with
              | some v => getConfigDouble (some v)
              | none => (match lookupKey ts st.tsHeap with
                         | some o2 => (o2.rangeMin, o2.rangeMax)
                         | none => ((0 : ℚ), (0 : ℚ))).1
            rangeMax :=
              match e.rangeMax with
              | some v => getConfigDouble (some v)
              | none => (match lookupKey ts st.tsHeap with
                         | some o2 => (o2.rangeMin, o2.rangeMax)
                         | none => ((0 : ℚ), (0 : ℚ))).2 }) >>= fun _ =>
        M.pure (some ts))) := by
  intro st
  cases hm : e.mode with
  | none =>
      refine ⟨by simp [hm], by simp [hm],
        fun j hj => by simpa [hm, isSome_lookupKey_heapModify] using hj,
        fun hk => by simpa [hm] using hk, fun v hv => ?_⟩
      simp [hm] at hv
      first | exact hv.symm | exact hv
  | some mode =>
      by_cases h1 : rtxStringsAreEqual mode "drop"
      · refine ⟨by simp [hm, h1], by simp [hm, h1],
          fun j hj => by simpa [hm, h1, isSome_lookupKey_heapModify] using hj,
          fun hk => by simpa [hm, h1] using hk, fun v hv => ?_⟩
        simp [hm, h1] at hv
        first | exact hv.symm | exact hv
      · by_cases h2 : rtxStringsAreEqual mode "saturate"
        · refine ⟨by simp [hm, h1, h2], by simp [hm, h1, h2],
            fun j hj => by simpa [hm, h1, h2, isSome_lookupKey_heapModify] using hj,
            fun hk => by simpa [hm, h1, h2] using hk, fun v hv => ?_⟩
          simp [hm, h1, h2] at hv
          first | exact hv.symm | exact hv
        · refine ⟨by simp [hm, h1, h2], by simp [hm, h1, h2],
            fun j hj => by simpa [hm, h1, h2, isSome_lookupKey_heapModify] using hj,
            fun hk => by simpa [hm, h1, h2] using hk, fun v hv => ?_⟩
          simp [hm, h1, h2] at hv
          first | exact hv.symm | exact hv

theorem creatorOK_createTimeSeries (e : TSSetting) (st : FState) :
    CreatorOK st (createTimeSeries e st) :=
  creatorOK_shell TSKind.timeSeries e st _ (fun ts => tailOK_createTimeSeries ts e)

theorem creatorOK_createMovingAverage (e : TSSetting) (st : FState) :
    CreatorOK st (createMovingAverage e st) :=
  creatorOK_shell TSKind.movingAverage e st _ (fun ts => tailOK_movingAverage e ts)

theorem creatorOK_createAggregator (e : TSSetting) (st : FState) :
    CreatorOK st (createAggregator e st) :=
  creatorOK_shell TSKind.aggregator e st _ (fun ts => tailOK_aggregator e ts)

theorem creatorOK_createResampler (e : TSSetting) (st : FState) :
    CreatorOK st (createResampler e st) :=
  creatorOK_shell TSKind.resampler e st _ (fun ts => tailOK_createTimeSeries ts e)

theorem creatorOK_createDerivative (e : TSSetting) (st : FState) :
    CreatorOK st (createDerivative e st) :=
  creatorOK_shell TSKind.firstDerivative e st _ (fun ts => tailOK_createTimeSeries ts e)

theorem creatorOK_createOffset (e : TSSetting) (st : FState) :
    CreatorOK st (createOffset e st) :=
  creatorOK_shell TSKind.offset e st _
    (fun ts => tailOK_optValue ts e.offsetValue (fun q o => { o with offsetValue := some q }))

theorem creatorOK_createThreshold (e : TSSetting) (st : FState) :
    CreatorOK st (createThreshold e st) :=
  creatorOK_shell TSKind.threshold e st _
    (fun ts => tailOK_optValue ts e.thresholdValue (fun q o => { o with thresholdValue := some q }))

theorem creatorOK_createCurveFunction (e : TSSetting) (st : FState) :
    CreatorOK st (createCurveFunction e st) :=
  creatorOK_shell TSKind.curveFunction e st _ (fun ts => tailOK_curveFunction e ts)

theorem creatorOK_createConstant (e : TSSetting) (st : FState) :
    CreatorOK st (createConstant e st) :=
  creatorOK_shell TSKind.constant e st _
    (fun ts => tailOK_optValue ts e.value (fun q o => { o with constantValue := some q }))

theorem creatorOK_createValidRange (e : TSSetting) (st : FState) :
    CreatorOK st (createValidRange e st) :=
  creatorOK_shell TSKind.validRange e st _ (fun ts => tailOK_validRange e ts)

theorem creatorOK_createMultiplier (e : TSSetting) (st : FState) :
    CreatorOK st (createMultiplier e st) :=
  creatorOK_shell TSKind.multiplier e st _ (fun ts => tailOK_multiplier e ts)

/-- Every registered constructor, and the not-recognized fallback, satisfies
the creator contract. -/
theorem createTSOfType_creatorOK (e : TSSetting) (st : FState) :
    CreatorOK st (createTimeSeriesOfType e st) := by
  cases ht : e.type with
  | none =>
      simp only [createTimeSeriesOfType, run_bind, ht, run_req_none]
      exact ⟨buildStep_refl st, fun i hi => by simp at hi⟩
  | some t =>
      simp only [createTimeSeriesOfType, run_bind, ht, run_req_some]
      split
      · exact creatorOK_createTimeSeries e st
      · exact creatorOK_createMovingAverage e st
      · exact creatorOK_createAggregator e st
      · exact creatorOK_createResampler e st
      · exact creatorOK_createDerivative e st
      · exact creatorOK_createDerivative e st
      · exact creatorOK_createOffset e st
      · exact creatorOK_createThreshold e st
      · exact creatorOK_createCurveFunction e st
      · exact creatorOK_createMultiplier e st
      · exact creatorOK_createValidRange e st
      · exact creatorOK_createConstant e st
      · refine ⟨⟨rfl, le_refl _, fun _ h => h, fun h => h⟩, fun i hi => by simp at hi⟩

/-- A construction step that respects `BuildStep` preserves the phase-1
invariant. -/
theorem phaseInv_buildStep {st st2 : FState} (h : PhaseInv st)
    (hb : BuildStep st st2) : PhaseInv st2 := by
  obtain ⟨hok, hinj, hkd⟩ := h
  obtain ⟨htbl, hnid, hheap, hkeys⟩ := hb
  refine ⟨?_, ?_, hkeys hkd⟩
  · intro nm j hj
    rw [htbl] at hj
    obtain ⟨h1, h2⟩ := hok nm j hj
    exact ⟨hheap j h1, lt_of_lt_of_le h2 hnid⟩
  · intro a b j ha hb2
    rw [htbl] at ha hb2
    exact hinj a b j ha hb2

/-- Registering a freshly allocated pointer under a name preserves the
phase-1 invariant: freshness rules out a pointer collision with any older
entry. -/
theorem phaseInv_insert {st st2 : FState} (nm : String) (i : Nat)
    (h : PhaseInv st) (hb : BuildStep st st2)
    (hfresh : st.nextId ≤ i) (hlt : i < st2.nextId)
    (hlive : (lookupKey i st2.tsHeap).isSome = true) :
    PhaseInv { st2 with timeSeriesList := mapInsert nm (some i) st2.timeSeriesList } := by
  obtain ⟨hok, hinj, hkd⟩ := h
  obtain ⟨htbl, hnid, hheap, hkeys⟩ := hb
  refine ⟨?_, ?_, hkeys hkd⟩
  · intro nm' j hj
    by_cases hne : nm' = nm
    · subst hne
      rw [lookupKey_mapInsert_self] at hj
      injection hj with hj
      injection hj with hj
      subst hj
      exact ⟨hlive, hlt⟩
    · rw [lookupKey_mapInsert_ne nm nm' (some i) _ hne] at hj
      rw [htbl] at hj
      obtain ⟨h1, h2⟩ := hok nm' j hj
      exact ⟨hheap j h1, lt_of_lt_of_le h2 hnid⟩
  · intro a b j ha hb2
    by_cases hae : a = nm <;> by_cases hbe : b = nm
    · rw [hae, hbe]
    · rw [hae] at ha
      rw [lookupKey_mapInsert_self] at ha
      injection ha with ha
      injection ha with ha
      rw [lookupKey_mapInsert_ne nm b (some i) _ hbe, htbl] at hb2
      rw [← ha] at hb2
      exact absurd (hok b i hb2).2 (not_lt_of_le hfresh)
    · rw [hbe] at hb2
      rw [lookupKey_mapInsert_self] at hb2
      injection hb2 with hb2
      injection hb2 with hb2
      rw [lookupKey_mapInsert_ne nm a (some i) _ hae, htbl] at ha
      rw [← hb2] at ha
      exact absurd (hok a i ha).2 (not_lt_of_le hfresh)
    · rw [lookupKey_mapInsert_ne nm a (some i) _ hae, htbl] at ha
      rw [lookupKey_mapInsert_ne nm b (some i) _ hbe, htbl] at hb2
      exact hinj a b j ha hb2

/-- Phase 1 of `createTimeSeriesList` maintains the invariant from any
starting state that satisfies it. -/
theorem buildTSE_inv : ∀ (g : List TSSetting) (st : FState), PhaseInv st →
    PhaseInv (buildTimeSeriesEntries g st).2 := by
  intro g
  induction g with
  | nil => intro st h; exact h
  | cons e rest ih =>
      intro st h
      cases hn : e.name with
      | none => simpa [buildTimeSeriesEntries, hn] using h
      | some nm =>
          simp only [buildTimeSeriesEntries, run_bind, hn, run_req_some]
          rcases hct : createTimeSeriesOfType e st with ⟨r, st2⟩
          have hck := createTSOfType_creatorOK e st
          rw [hct] at hck
          obtain ⟨hbs, hfresh⟩ := hck
          cases r with
          | error err => exact phaseInv_buildStep h hbs
          | ok ots =>
              cases ots with
              | none => exact ih _ (phaseInv_buildStep h hbs)
              | some i =>
                  obtain ⟨hf1, hf2, hf3⟩ := hfresh i rfl
                  exact ih _ (phaseInv_insert nm i h hbs hf1 hf2 hf3)

/-- One step of the single-source connection loop, by cases on the two
name-table lookups. -/
theorem css_cons_eq (d s : String) (rest : List (String × String)) (st : FState) :
    connectSingleSources ((d, s) :: rest) st =
      match lookupKey d st.timeSeriesList with
      | none => connectSingleSources rest
          { st with diags := st.diags ++ [Diag.cannotLocateTimeSeries d] }
      | some od =>
          match lookupKey s st.timeSeriesList with
          | none => connectSingleSources rest
              { st with diags := st.diags ++ [Diag.cannotLocateSourceTimeSeries s d] }
          | some os =>
              match od with
              | some j => connectSingleSources rest
                  { st with tsHeap := heapModify j (fun o => { o with source := some os }) st.tsHeap }
              | none => connectSingleSources rest st := by
  cases hd : lookupKey d st.timeSeriesList with
  | none => simp [connectSingleSources, hd]
  | some od =>
      cases hs : lookupKey s st.timeSeriesList with
      | none => simp [connectSingleSources, hd, hs]
      | some os =>
          cases od with
          | none =>
              simp [connectSingleSources, hd, hs, mapSubscript_found hd,
                mapSubscript_found hs]
          | some j =>
              simp [connectSingleSources, hd, hs, mapSubscript_found hd,
                mapSubscript_found hs]

/-- The single-source loop never throws and never changes the name table. -/
theorem css_frame : ∀ (L : List (String × String)) (st : FState),
    (connectSingleSources L st).1 = Except.ok () ∧
    (connectSingleSources L st).2.timeSeriesList = st.timeSeriesList := by
  intro L
  induction L with
  | nil => intro st; exact ⟨rfl, rfl⟩
  | cons p rest ih =>
      intro st
      obtain ⟨d, s⟩ := p
      rw [css_cons_eq]
      cases hd : lookupKey d st.timeSeriesList with
      | none => exact ⟨(ih _).1, (ih _).2⟩
      | some od =>
          cases hs : lookupKey s st.timeSeriesList with
          | none => exact ⟨(ih _).1, (ih _).2⟩
          | some os =>
              cases od with
              | none => exact ⟨(ih _).1, (ih _).2⟩
              | some j => exact ⟨(ih _).1, (ih _).2⟩

/-- A heap cell whose id is not the table entry of any pending dependent is
left alone by the single-source loop. -/
theorem css_untouched : ∀ (L : List (String × String)) (st : FState) (i : Nat),
    (∀ p, p ∈ L → ∀ j, lookupKey p.1 st.timeSeriesList = some (some j) → j ≠ i) →
    lookupKey i (connectSingleSources L st).2.tsHeap = lookupKey i st.tsHeap := by
  intro L
  induction L with
  | nil => intro st i _; rfl
  | cons p rest ih =>
      intro st i hcond
      obtain ⟨d, s⟩ := p
      rw [css_cons_eq]
      cases hd : lookupKey d st.timeSeriesList with
      | none => exact ih _ i (fun q hq => hcond q (List.mem_cons_of_mem _ hq))
      | some od =>
          cases hs : lookupKey s st.timeSeriesList with
          | none => exact ih _ i (fun q hq => hcond q (List.mem_cons_of_mem _ hq))
          | some os =>
              cases od with
              | none => exact ih _ i (fun q hq => hcond q (List.mem_cons_of_mem _ hq))
              | some j =>
                  have hji : j ≠ i := hcond (d, s) (List.mem_cons_self _ _) j hd
                  have hrest := ih
                    { st with tsHeap := heapModify j (fun o => { o with source := some os }) st.tsHeap } i
                    (fun q hq => hcond q (List.mem_cons_of_mem _ hq))
                  rw [hrest]
                  exact lookupKey_heapModify_ne j i _ st.tsHeap (Ne.symm hji)

/-- When the pending single-source map has distinct keys and the name table
is injective, the loop sets the source pointer of each resolvable dependent
to the table entry of its declared source. -/
theorem css_sets : ∀ (L : List (String × String)) (st : FState) (d s : String)
    (i v : Nat),
    TableInj st → KeysDistinct L → (d, s) ∈ L →
    lookupKey d st.timeSeriesList = some (some i) →
    lookupKey s st.timeSeriesList = some (some v) →
    (lookupKey i st.tsHeap).isSome = true →
    ∃ o, lookupKey i (connectSingleSources L st).2.tsHeap = some o ∧
      o.source = some (some v) := by
  intro L
  induction L with
  | nil => intro st d s i v _ _ hmem; exact absurd hmem (List.not_mem_nil _)
  | cons p rest ih =>
      intro st d s i v hinj hkd hmem hd hs hlive
      obtain ⟨d1, s1⟩ := p
      rw [css_cons_eq]
      rw [KeysDistinct, List.pairwise_cons] at hkd
      obtain ⟨hhead, htail⟩ := hkd
      rcases List.mem_cons.mp hmem with heq | hmem2
      · injection heq with h1 h2
        subst h1
        subst h2
        simp only [hd, hs]
        have hcond : ∀ q, q ∈ rest → ∀ j,
            lookupKey q.1 st.timeSeriesList = some (some j) → j ≠ i := by
          intro q hq j hqj hji
          rw [hji] at hqj
          exact hhead q hq (hinj q.1 d i hqj hd).symm
        rw [css_untouched rest { st with tsHeap := heapModify i (fun o => { o with source := some (some v) }) st.tsHeap } i hcond]
        obtain ⟨o, ho⟩ := Option.isSome_iff_exists.mp hlive
        refine ⟨{ o with source := some (some v) }, ?_, rfl⟩
        simp [lookupKey_heapModify_self, ho]
      · cases hdc : lookupKey d1 st.timeSeriesList with
        | none => exact ih _ d s i v hinj htail hmem2 hd hs hlive
        | some od =>
            cases hsc : lookupKey s1 st.timeSeriesList with
            | none => exact ih _ d s i v hinj htail hmem2 hd hs hlive
            | some os =>
                cases od with
                | none => exact ih _ d s i v hinj htail hmem2 hd hs hlive
                | some j =>
                    exact ih _ d s i v hinj htail hmem2 hd hs
                      (by simpa [isSome_lookupKey_heapModify] using hlive)

/-- A heap mutation that does not touch the `source` field preserves the
source projection of every cell. -/
theorem sourceMap_heapModify (j : Nat) (f : TSObj → TSObj)
    (hf : ∀ o, (f o).source = o.source) (m : List (Nat × TSObj)) (i : Nat) :
    (lookupKey i (heapModify j f m)).map TSObj.source =
      (lookupKey i m).map TSObj.source := by
  by_cases hij : i = j
  · subst hij
    rw [lookupKey_heapModify_self]
    cases lookupKey i m with
    | none => rfl
    | some o => simp [hf]
  · rw [lookupKey_heapModify_ne j i f m hij]

/-- One step of the multiplier connection loop. -/
theorem cmb_cons_eq (ts : Nat) (basisName : String)
    (rest : List (Nat × String)) (st : FState) :
    connectMultiplierBases ((ts, basisName) :: rest) st =
      match lookupKey (((lookupKey ts st.tsHeap).map TSObj.name).getD "")
          st.timeSeriesList with
      | none => connectMultiplierBases rest
          { st with diags := st.diags ++
              [Diag.cannotLocateTimeSeries
                (((lookupKey ts st.tsHeap).map TSObj.name).getD "")] }
      | some _ => connectMultiplierBases rest
          { st with
            timeSeriesList := (mapSubscript basisName st.timeSeriesList).2,
            tsHeap := heapModify ts (fun o => { o with multiplierBasis := some (mapSubscript basisName st.timeSeriesList).1 }) st.tsHeap } := by
  cases hl : lookupKey (((lookupKey ts st.tsHeap).map TSObj.name).getD "")
      st.timeSeriesList with
  | none => simp [connectMultiplierBases, hl]
  | some od => simp [connectMultiplierBases, hl]

/-- The multiplier connection loop never throws and never changes the
`source` field of any heap cell. -/
theorem cmb_source : ∀ (L : List (Nat × String)) (st : FState),
    (connectMultiplierBases L st).1 = Except.ok () ∧
    ∀ i, (lookupKey i (connectMultiplierBases L st).2.tsHeap).map TSObj.source =
      (lookupKey i st.tsHeap).map TSObj.source := by
  intro L
  induction L with
  | nil => intro st; exact ⟨rfl, fun _ => rfl⟩
  | cons p rest ih =>
      intro st
      obtain ⟨ts, basisName⟩ := p
      rw [cmb_cons_eq]
      cases hl : lookupKey (((lookupKey ts st.tsHeap).map TSObj.name).getD "")
          st.timeSeriesList with
      | none => exact ⟨(ih _).1, fun i => (ih _).2 i⟩
      | some od =>
          refine ⟨(ih _).1, fun i => ?_⟩
          exact ((ih _).2 i).trans
            (sourceMap_heapModify ts (fun o => { o with multiplierBasis := some (mapSubscript basisName st.timeSeriesList).1 }) (fun _ => rfl) st.tsHeap i)

/-- The weighted-source attachment loop never throws and never changes the
`source` field of any heap cell. -/
theorem aa_source : ∀ (l : List (String × ℚ)) (ts : Option Nat) (nm : String)
    (st : FState),
    (attachAggSources ts nm l st).1 = Except.ok () ∧
    ∀ i, (lookupKey i (attachAggSources ts nm l st).2.tsHeap).map TSObj.source =
      (lookupKey i st.tsHeap).map TSObj.source := by
  intro l
  induction l with
  | nil => intro ts nm st; exact ⟨rfl, fun _ => rfl⟩
  | cons p rest ih =>
      intro ts nm st
      obtain ⟨sourceName, multiplier⟩ := p
      cases hl : lookupKey sourceName st.timeSeriesList with
      | none =>
          refine ⟨?_, fun i => ?_⟩
          · simpa [attachAggSources, hl] using (ih ts nm _).1
          · simpa [attachAggSources, hl] using (ih ts nm _).2 i
      | some source =>
          cases ts with
          | none =>
              refine ⟨?_, fun i => ?_⟩
              · simpa [attachAggSources, hl] using (ih none nm _).1
              · simpa [attachAggSources, hl] using (ih none nm _).2 i
          | some t =>
              refine ⟨?_, fun i => ?_⟩
              · simpa [attachAggSources, hl] using (ih (some t) nm _).1
              · simp only [attachAggSources, hl, run_bind, run_get,
                  run_callOn_some]
                exact ((ih (some t) nm _).2 i).trans
                  (sourceMap_heapModify t (fun o => { o with aggSources := o.aggSources ++ [(source, multiplier)] }) (fun _ => rfl) st.tsHeap i)

/-- The aggregator connection loop never throws and never changes the
`source` field of any heap cell. -/
theorem cagg_source : ∀ (L : List (String × List (String × ℚ))) (st : FState),
    (connectAggregators L st).1 = Except.ok () ∧
    ∀ i, (lookupKey i (connectAggregators L st).2.tsHeap).map TSObj.source =
      (lookupKey i st.tsHeap).map TSObj.source := by
  intro L
  induction L with
  | nil => intro st; exact ⟨rfl, fun _ => rfl⟩
  | cons p rest ih =>
      intro st
      obtain ⟨tsName, aggList⟩ := p
      cases hl : lookupKey tsName st.timeSeriesList with
      | none =>
          refine ⟨?_, fun i => ?_⟩
          · simpa [connectAggregators, hl] using (ih _).1
          · simpa [connectAggregators, hl] using (ih _).2 i
      | some ts =>
          rcases haa : attachAggSources ts tsName aggList st with ⟨ra, sta⟩
          have ha := aa_source aggList ts tsName st
          rw [haa] at ha
          obtain ⟨ha1, ha2⟩ := ha
          simp only at ha1
          subst ha1
          refine ⟨?_, fun i => ?_⟩
          · simpa [connectAggregators, hl, haa] using (ih sta).1
          · simp only [connectAggregators, hl, run_bind, run_get, haa]
            exact ((ih sta).2 i).trans (ha2 i)

/-- The empty factory state satisfies the phase-1 invariant. -/
theorem phaseInv_init : PhaseInv FState.init := by
  refine ⟨fun nm j h => ?_, fun a b j ha hb => ?_, ?_⟩
  · simp [FState.init, lookupKey] at h
  · simp [FState.init, lookupKey] at ha
  · simp [FState.init, KeysDistinct]

/-- C1: single-source references are order-independent.  A `source` field is
never resolved during construction: `setGenericTimeSeriesProperties` only
records the (dependent name, source name) pair in `_timeSeriesSourceList`,
and `createTimeSeriesList` resolves all pairs only after every node has been
built.  Consequently the resolution outcome is determined solely by the
*completed* name table and the recorded pair — hypotheses that make no
reference to where in the document the two declarations appeared — so a
document in which the source is declared after its dependent resolves
exactly like one in which it is declared before: whenever phase 1 succeeds
with the dependent `d` stored at heap cell `i`, the source `s` stored as
pointer `v`, and the pending pair `(d, s)` recorded, the dependent's
`source` ends up set to that same pointer `v`. -/
theorem c1_single_source_order_independent
    (g : List TSSetting) (st0 : FState) (d s : String) (i v : Nat)
    (hinv : PhaseInv st0)
    (hok : (buildTimeSeriesEntries g st0).1 = Except.ok ())
    (hpend : lookupKey d (buildTimeSeriesEntries g st0).2.timeSeriesSourceList = some s)
    (hd : lookupKey d (buildTimeSeriesEntries g st0).2.timeSeriesList = some (some i))
    (hs : lookupKey s (buildTimeSeriesEntries g st0).2.timeSeriesList = some (some v)) :
    (createTimeSeriesList g st0).1 = Except.ok () ∧
    ∃ o, lookupKey i (createTimeSeriesList g st0).2.tsHeap = some o ∧
      o.source = some (some v) := by
  have hinv1 := buildTSE_inv g st0 hinv
  rcases hb : buildTimeSeriesEntries g st0 with ⟨rb, st1⟩
  rw [hb] at hok hpend hd hs hinv1
  simp only at hok hpend hd hs hinv1
  subst hok
  obtain ⟨hTok, hTinj, hKd⟩ := hinv1
  rcases hcss : connectSingleSources st1.timeSeriesSourceList st1 with ⟨rc, stc⟩
  have hfr := css_frame st1.timeSeriesSourceList st1
  rw [hcss] at hfr
  obtain ⟨hrc, htc⟩ := hfr
  simp only at hrc htc
  subst hrc
  have hset := css_sets st1.timeSeriesSourceList st1 d s i v hTinj hKd
    (lookupKey_mem hpend) hd hs (hTok d i hd).1
  rw [hcss] at hset
  simp only at hset
  rcases hcmb : connectMultiplierBases stc.multiplierBasisList stc with ⟨rm, stm⟩
  have hm := cmb_source stc.multiplierBasisList stc
  rw [hcmb] at hm
  obtain ⟨hrm, hms⟩ := hm
  simp only at hrm hms
  subst hrm
  rcases hcagg : connectAggregators stm.aggregationSourceList stm with ⟨rg, stg⟩
  have hg := cagg_source stm.aggregationSourceList stm
  rw [hcagg] at hg
  obtain ⟨hrg, hgs⟩ := hg
  simp only at hrg hgs
  subst hrg
  obtain ⟨o, ho, hosrc⟩ := hset
  have hfinal : (lookupKey i stg.tsHeap).map TSObj.source = some (some (some v)) := by
    rw [hgs i, hms i, ho]
    simp [hosrc]
  constructor
  · simp [createTimeSeriesList, hb, hcss, hcmb, hcagg]
  · simp only [createTimeSeriesList, run_bind, run_get, hb, hcss, hcmb, hcagg]
    rcases Option.map_eq_some'.mp hfinal with ⟨o2, ho2, ho2src⟩
    exact ⟨o2, ho2, ho2src⟩

theorem c1_witness :
    (PhaseInv FState.init ∧
     (buildTimeSeriesEntries
       [{ name := some "avg", type := some "Resampler", source := some "raw" },
        { name := some "raw", type := some "TimeSeries" }] FState.init).1 = Except.ok () ∧
     lookupKey "avg" (buildTimeSeriesEntries
       [{ name := some "avg", type := some "Resampler", source := some "raw" },
        { name := some "raw", type := some "TimeSeries" }] FState.init).2.timeSeriesSourceList = some "raw" ∧
     lookupKey "avg" (buildTimeSeriesEntries
       [{ name := some "avg", type := some "Resampler", source := some "raw" },
        { name := some "raw", type := some "TimeSeries" }] FState.init).2.timeSeriesList = some (some 0) ∧
     lookupKey "raw" (buildTimeSeriesEntries
       [{ name := some "avg", type := some "Resampler", source := some "raw" },
        { name := some "raw", type := some "TimeSeries" }] FState.init).2.timeSeriesList = some (some 1)) ∧
    ((createTimeSeriesList
       [{ name := some "avg", type := some "Resampler", source := some "raw" },
        { name := some "raw", type := some "TimeSeries" }] FState.init).1 = Except.ok () ∧
     ∃ o, lookupKey 0 (createTimeSeriesList
       [{ name := some "avg", type := some "Resampler", source := some "raw" },
        { name := some "raw", type := some "TimeSeries" }] FState.init).2.tsHeap = some o ∧
       o.source = some (some 1)) :=
  ⟨⟨phaseInv_init, by decide, by decide, by decide, by decide⟩,
   c1_single_source_order_independent
     [{ name := some "avg", type := some "Resampler", source := some "raw" },
      { name := some "raw", type := some "TimeSeries" }] FState.init
     "avg" "raw" 0 1 phaseInv_init (by decide) (by decide) (by decide) (by decide)⟩

end Phase1Invariant

section WarningProvenance

open ConfigFactory

/-- Sequencing preserves "does not introduce the persistence warning". -/
theorem noWarn_bind {α β : Type} {x : M α} {f : α → M β}
    (hx : ∀ st : FState, Diag.noStateRecordWarning ∈ ((x st).2).diags →
      Diag.noStateRecordWarning ∈ st.diags)
    (hf : ∀ (a : α) (st : FState), Diag.noStateRecordWarning ∈ (((f a) st).2).diags →
      Diag.noStateRecordWarning ∈ st.diags) :
    ∀ st : FState, Diag.noStateRecordWarning ∈ (((x >>= f) st).2).diags →
      Diag.noStateRecordWarning ∈ st.diags := by
  intro st h
  rcases hx2 : x st with ⟨r, st2⟩
  have hx3 := hx st
  rw [hx2] at hx3
  cases r with
  | error e => exact hx3 (by simpa [run_bind, hx2] using h)
  | ok a => exact hx3 (hf a st2 (by simpa [run_bind, hx2] using h))

/-- Case split over an optional setting. -/
theorem noWarn_optMatch {γ β : Type} (v : Option γ) (F : γ → M β) (G : M β)
    (hF : ∀ (g : γ) (st : FState), Diag.noStateRecordWarning ∈ (((F g) st).2).diags →
      Diag.noStateRecordWarning ∈ st.diags)
    (hG : ∀ st : FState, Diag.noStateRecordWarning ∈ ((G st).2).diags →
      Diag.noStateRecordWarning ∈ st.diags) :
    ∀ st : FState,
      Diag.noStateRecordWarning ∈
        (((match v with | some g => F g | none => G) st).2).diags →
      Diag.noStateRecordWarning ∈ st.diags := by
  cases v with
  | none => exact hG
  | some g => exact hF g

theorem noWarn_req {α : Type} (v : Option α) (p : String) :
    ∀ st : FState, Diag.noStateRecordWarning ∈ (((M.req v p) st).2).diags →
      Diag.noStateRecordWarning ∈ st.diags := by
  intro st h
  cases v <;> exact h

theorem noWarn_emit (d : Diag) (hd : Diag.noStateRecordWarning ≠ d) :
    ∀ st : FState, Diag.noStateRecordWarning ∈ (((M.emit d) st).2).diags →
      Diag.noStateRecordWarning ∈ st.diags := by
  intro st h
  simp only [run_emit, List.mem_append, List.mem_singleton] at h
  rcases h with h | h
  · exact h
  · exact absurd h hd

theorem noWarn_callOn (p : Option Nat) (f : TSObj → TSObj) :
    ∀ st : FState, Diag.noStateRecordWarning ∈ (((M.callOn p f) st).2).diags →
      Diag.noStateRecordWarning ∈ st.diags := by
  intro st h
  cases p <;> exact h

/-- `setGenericTimeSeriesProperties` never emits any diagnostic. -/
theorem noWarn_setGeneric (i : Nat) (e : TSSetting) :
    ∀ st : FState,
      Diag.noStateRecordWarning ∈ ((setGenericTimeSeriesProperties i e st).2).diags →
      Diag.noStateRecordWarning ∈ st.diags := by
  intro st h
  cases hn : e.name with
  | none => rw [setGeneric_err i e st hn] at h; exact h
  | some n => rw [setGeneric_eq i e st n hn] at h; simpa using h

theorem noWarn_parseAgg (l : List AggSource) :
    ∀ st : FState,
      Diag.noStateRecordWarning ∈ ((parseAggSourceList l st).2).diags →
      Diag.noStateRecordWarning ∈ st.diags := by
  intro st h
  rcases hp : parseAggSourceList l st with ⟨r, st2⟩
  have heq := (parseAgg_spec l st st2 r hp).1
  rw [hp] at h
  simp only at h
  rw [heq] at h
  exact h

theorem noWarn_addCC (l : List CurvePoint) (ts : Nat) :
    ∀ st : FState,
      Diag.noStateRecordWarning ∈ ((addCurveCoordinates ts l st).2).diags →
      Diag.noStateRecordWarning ∈ st.diags := by
  induction l with
  | nil => exact fun st h => h
  | cons c rest ih =>
      intro st h
      cases hx : c.x with
      | none => exact ih st (by simpa [addCurveCoordinates, hx] using h)
      | some xv =>
          cases hy : c.y with
          | none => exact ih st (by simpa [addCurveCoordinates, hx, hy] using h)
          | some yv =>
              have h2 := ih
                { st with tsHeap := heapModify ts (fun o => { o with curve := o.curve ++ [(getConfigDouble (some xv), getConfigDouble (some yv))] }) st.tsHeap }
                (by simpa [addCurveCoordinates, hx, hy] using h)
              exact h2

theorem noWarn_createClocks : ∀ (l : List ClockSetting) (st : FState),
    Diag.noStateRecordWarning ∈ ((createClocks l st).2).diags →
    Diag.noStateRecordWarning ∈ st.diags := by
  intro l
  induction l with
  | nil => exact fun st h => h
  | cons c rest ih =>
      exact noWarn_bind (noWarn_req c.name "name") (fun nm =>
        noWarn_bind (noWarn_req c.period "period") (fun p =>
          noWarn_bind (fun st h => h) (fun aClock =>
            noWarn_bind (fun st h => h) (fun _ => ih))))

theorem noWarn_createSimulationDefaults (g : SimulationSetting) :
    ∀ st : FState,
      Diag.noStateRecordWarning ∈ ((createSimulationDefaults g st).2).diags →
      Diag.noStateRecordWarning ∈ st.diags := by
  refine noWarn_bind (noWarn_req g.time "time") (fun t =>
    noWarn_bind (noWarn_req t.hydraulic "hydraulic") (fun hyd =>
      noWarn_bind (noWarn_req t.quality "quality") (fun q => fun st h => h)))

theorem noWarn_createZones (g : ZoneSetting) :
    ∀ st : FState,
      Diag.noStateRecordWarning ∈ ((createZones g st).2).diags →
      Diag.noStateRecordWarning ∈ st.diags := by
  intro st h
  cases ha : g.autoDetect with
  | none => simpa [createZones, ha] using h
  | some b => cases b <;> simpa [createZones, ha] using h

/-- `applySaveStates` touches no diagnostics at all. -/
theorem ass_diags : ∀ (l : List String) (st : FState),
    ((applySaveStates l st).2).diags = st.diags := by
  intro l
  induction l with
  | nil => intro st; rfl
  | cons s rest ih =>
      intro st
      by_cases h1 : rtxStringsAreEqual s "all"
      · simp [applySaveStates, h1, ih]
      · by_cases h2 : rtxStringsAreEqual s "measured"
        · simp [applySaveStates, h1, h2, ih]
        · by_cases h3 : rtxStringsAreEqual s "zone_demand"
          · simp [applySaveStates, h1, h2, h3, ih]
          · simp [applySaveStates, h1, h2, h3, ih]

theorem noWarn_createCsvPointRecord (r : RecordSetting) :
    ∀ st : FState,
      Diag.noStateRecordWarning ∈ ((createCsvPointRecord r st).2).diags →
      Diag.noStateRecordWarning ∈ st.diags := by
  intro st h
  cases hn : r.name <;> cases hp : r.path <;> cases hc : r.configPath <;>
    simpa [createCsvPointRecord, hn, hp, hc] using h

theorem noWarn_createOdbcPointRecord (r : RecordSetting) :
    ∀ st : FState,
      Diag.noStateRecordWarning ∈ ((createOdbcPointRecord r st).2).diags →
      Diag.noStateRecordWarning ∈ st.diags := by
  intro st h
  cases hq : r.querySpec with
  | none =>
      cases hcn : r.connection <;> cases hnm : r.name <;> cases hct : r.connectorType <;>
        simpa [createOdbcPointRecord, hq, hcn, hnm, hct] using h
  | some cols =>
      cases ht : cols.table with
      | none =>
          cases hcn : r.connection <;> cases hnm : r.name <;>
            simpa [createOdbcPointRecord, hq, ht, hcn, hnm] using h
      | some t0 =>
          cases hd2 : cols.dateColumn with
          | none =>
              cases hcn : r.connection <;> cases hnm : r.name <;>
                simpa [createOdbcPointRecord, hq, ht, hd2, hcn, hnm] using h
          | some d0 =>
              cases htg : cols.tagColumn with
              | none =>
                  cases hcn : r.connection <;> cases hnm : r.name <;>
                    simpa [createOdbcPointRecord, hq, ht, hd2, htg, hcn, hnm] using h
              | some tg0 =>
                  cases hvc : cols.valueColumn with
                  | none =>
                      cases hcn : r.connection <;> cases hnm : r.name <;>
                        simpa [createOdbcPointRecord, hq, ht, hd2, htg, hvc, hcn, hnm] using h
                  | some v0 =>
                      cases hqc : cols.qualityColumn with
                      | none =>
                          cases hcn : r.connection <;> cases hnm : r.name <;>
                            simpa [createOdbcPointRecord, hq, ht, hd2, htg, hvc, hqc, hcn, hnm] using h
                      | some q0 =>
                          cases hcn : r.connection <;> cases hnm : r.name <;>
                            cases hct : r.connectorType <;>
                            simpa [createOdbcPointRecord, hq, ht, hd2, htg, hvc, hqc,
                              hcn, hnm, hct] using h

theorem noWarn_createMySqlPointRecord (r : RecordSetting) :
    ∀ st : FState,
      Diag.noStateRecordWarning ∈ ((createMySqlPointRecord r st).2).diags →
      Diag.noStateRecordWarning ∈ st.diags :=
  noWarn_bind (noWarn_req r.name "name") (fun _ =>
    noWarn_bind (fun st h => h) (fun record =>
      noWarn_bind (noWarn_req r.connection "connection") (fun c =>
        noWarn_bind (fun st h => h) (fun _ => fun st h => h))))

theorem noWarn_createPointRecordOfType (r : RecordSetting) :
    ∀ st : FState,
      Diag.noStateRecordWarning ∈ ((createPointRecordOfType r st).2).diags →
      Diag.noStateRecordWarning ∈ st.diags := by
  intro st h
  cases htype : r.type with
  | none => simpa [createPointRecordOfType, htype] using h
  | some t =>
      by_cases h1 : t = "CSV"
      · exact noWarn_createCsvPointRecord r st
          (by simpa [createPointRecordOfType, htype, h1] using h)
      · by_cases h2 : t = "SCADA"
        · exact noWarn_createOdbcPointRecord r st
            (by simpa [createPointRecordOfType, htype, h1, h2] using h)
        · by_cases h3 : t = "MySQL"
          · exact noWarn_createMySqlPointRecord r st
              (by simpa [createPointRecordOfType, htype, h1, h2, h3] using h)
          · simpa [createPointRecordOfType, htype, h1, h2, h3] using h

theorem noWarn_createPointRecordsFrom : ∀ (l : List RecordSetting) (i : Nat)
    (st : FState),
    Diag.noStateRecordWarning ∈ ((createPointRecordsFrom i l st).2).diags →
    Diag.noStateRecordWarning ∈ st.diags := by
  intro l
  induction l with
  | nil => intro i st h; exact h
  | cons r rest ih =>
      intro i st h
      rcases hp : createPointRecordOfType { r with configPath := some st.configPath } st
        with ⟨rp, stp⟩
      have hpr := noWarn_createPointRecordOfType { r with configPath := some st.configPath } st
      rw [hp] at hpr
      cases rp with
      | error e2 =>
          simp only [createPointRecordsFrom, run_bind, run_get, hp] at h
          exact hpr h
      | ok p =>
          cases p with
          | some j =>
              simp only [createPointRecordsFrom, run_bind, run_get, hp, run_modifyF] at h
              have h2 := ih (i + 1) _ h
              exact hpr h2
          | none =>
              simp only [createPointRecordsFrom, run_bind, run_get, hp, run_emit] at h
              have h2 := ih (i + 1) _ h
              exact hpr (by simpa using h2)

theorem noWarn_createPointRecords (l : List RecordSetting) :
    ∀ st : FState,
      Diag.noStateRecordWarning ∈ ((createPointRecords l st).2).diags →
      Diag.noStateRecordWarning ∈ st.diags :=
  fun st h => noWarn_createPointRecordsFrom l 0 st h

theorem noWarn_createTimeSeries (e : TSSetting) :
    ∀ st : FState,
      Diag.noStateRecordWarning ∈ ((createTimeSeries e st).2).diags →
      Diag.noStateRecordWarning ∈ st.diags :=
  noWarn_bind (fun st h => h) (fun ts =>
    noWarn_bind (noWarn_setGeneric ts e) (fun _ => fun st h => h))

theorem noWarn_createResampler (e : TSSetting) :
    ∀ st : FState,
      Diag.noStateRecordWarning ∈ ((createResampler e st).2).diags →
      Diag.noStateRecordWarning ∈ st.diags :=
  noWarn_bind (fun st h => h) (fun ts =>
    noWarn_bind (noWarn_setGeneric ts e) (fun _ => fun st h => h))

theorem noWarn_createDerivative (e : TSSetting) :
    ∀ st : FState,
      Diag.noStateRecordWarning ∈ ((createDerivative e st).2).diags →
      Diag.noStateRecordWarning ∈ st.diags :=
  noWarn_bind (fun st h => h) (fun ts =>
    noWarn_bind (noWarn_setGeneric ts e) (fun _ => fun st h => h))

theorem noWarn_createMovingAverage (e : TSSetting) :
    ∀ st : FState,
      Diag.noStateRecordWarning ∈ ((createMovingAverage e st).2).diags →
      Diag.noStateRecordWarning ∈ st.diags :=
  noWarn_bind (fun st h => h) (fun ts =>
    noWarn_bind (noWarn_setGeneric ts e) (fun _ =>
      noWarn_bind (noWarn_req e.window "window") (fun w =>
        noWarn_bind (fun st h => h) (fun _ => fun st h => h))))

theorem noWarn_createAggregator (e : TSSetting) :
    ∀ st : FState,
      Diag.noStateRecordWarning ∈ ((createAggregator e st).2).diags →
      Diag.noStateRecordWarning ∈ st.diags :=
  noWarn_bind (fun st h => h) (fun ts =>
    noWarn_bind (noWarn_setGeneric ts e) (fun _ =>
      noWarn_bind (noWarn_req e.sources "sources") (fun sources =>
        noWarn_bind (noWarn_parseAgg sources) (fun sl =>
          noWarn_bind (fun st h => h) (fun name =>
            noWarn_bind (fun st h => h) (fun _ => fun st h => h))))))

theorem noWarn_createOffset (e : TSSetting) :
    ∀ st : FState,
      Diag.noStateRecordWarning ∈ ((createOffset e st).2).diags →
      Diag.noStateRecordWarning ∈ st.diags :=
  noWarn_bind (fun st h => h) (fun ts =>
    noWarn_bind (noWarn_setGeneric ts e) (fun _ => by
      intro st h
      cases hv : e.offsetValue with
      | none => simpa [hv] using h
      | some v0 => simpa [hv] using h))

theorem noWarn_createThreshold (e : TSSetting) :
    ∀ st : FState,
      Diag.noStateRecordWarning ∈ ((createThreshold e st).2).diags →
      Diag.noStateRecordWarning ∈ st.diags :=
  noWarn_bind (fun st h => h) (fun ts =>
    noWarn_bind (noWarn_setGeneric ts e) (fun _ =>
      by
      intro st h
      cases hv : e.thresholdValue with
      | none => simpa [hv] using h
      | some v0 => simpa [hv] using h))

theorem noWarn_createConstant (e : TSSetting) :
    ∀ st : FState,
      Diag.noStateRecordWarning ∈ ((createConstant e st).2).diags →
      Diag.noStateRecordWarning ∈ st.diags :=
  noWarn_bind (fun st h => h) (fun ts =>
    noWarn_bind (noWarn_setGeneric ts e) (fun _ =>
      by
      intro st h
      cases hv : e.value with
      | none => simpa [hv] using h
      | some v0 => simpa [hv] using h))

theorem noWarn_createMultiplier (e : TSSetting) :
    ∀ st : FState,
      Diag.noStateRecordWarning ∈ ((createMultiplier e st).2).diags →
      Diag.noStateRecordWarning ∈ st.diags :=
  noWarn_bind (fun st h => h) (fun ts =>
    noWarn_bind (noWarn_setGeneric ts e) (fun _ =>
      by
      intro st h
      cases hv : e.multiplier with
      | none => simpa [hv] using h
      | some basis => simpa [hv] using h))

theorem noWarn_createCurveFunction (e : TSSetting) :
    ∀ st : FState,
      Diag.noStateRecordWarning ∈ ((createCurveFunction e st).2).diags →
      Diag.noStateRecordWarning ∈ st.diags :=
  noWarn_bind (fun st h => h) (fun ts =>
    noWarn_bind (noWarn_setGeneric ts e) (fun _ =>
      noWarn_bind (fun st h => h) (fun _ =>
        noWarn_bind (noWarn_req e.function "function") (fun coords =>
          noWarn_bind (noWarn_addCC coords ts) (fun _ => fun st h => h)))))

theorem noWarn_createValidRange (e : TSSetting) :
    ∀ st : FState,
      Diag.noStateRecordWarning ∈ ((createValidRange e st).2).diags →
      Diag.noStateRecordWarning ∈ st.diags :=
  noWarn_bind (fun st h => h) (fun ts =>
    noWarn_bind (noWarn_setGeneric ts e) (fun _ => by
      intro st h
      cases hm : e.mode with
      | none => simpa [hm] using h
      | some mode =>
          by_cases h1 : rtxStringsAreEqual mode "drop" = true
          · simpa [hm, h1] using h
          · by_cases h2 : rtxStringsAreEqual mode "saturate" = true
            · simpa [hm, h1, h2] using h
            · simpa [hm, h1, h2] using h))

theorem noWarn_createTimeSeriesOfType (e : TSSetting) :
    ∀ st : FState,
      Diag.noStateRecordWarning ∈ ((createTimeSeriesOfType e st).2).diags →
      Diag.noStateRecordWarning ∈ st.diags := by
  intro st h
  cases ht : e.type with
  | none => simpa [createTimeSeriesOfType, ht] using h
  | some t =>
      simp only [createTimeSeriesOfType, run_bind, ht, run_req_some] at h
      split at h
      · exact noWarn_createTimeSeries e st h
      · exact noWarn_createMovingAverage e st h
      · exact noWarn_createAggregator e st h
      · exact noWarn_createResampler e st h
      · exact noWarn_createDerivative e st h
      · exact noWarn_createDerivative e st h
      · exact noWarn_createOffset e st h
      · exact noWarn_createThreshold e st h
      · exact noWarn_createCurveFunction e st h
      · exact noWarn_createMultiplier e st h
      · exact noWarn_createValidRange e st h
      · exact noWarn_createConstant e st h
      · simpa using h

theorem noWarn_buildTSE : ∀ (g : List TSSetting) (st : FState),
    Diag.noStateRecordWarning ∈ ((buildTimeSeriesEntries g st).2).diags →
    Diag.noStateRecordWarning ∈ st.diags := by
  intro g
  induction g with
  | nil => exact fun st h => h
  | cons e rest ih =>
      intro st h
      cases hn : e.name with
      | none => simpa [buildTimeSeriesEntries, hn] using h
      | some nm =>
          rcases hct : createTimeSeriesOfType e st with ⟨r, st2⟩
          have hc := noWarn_createTimeSeriesOfType e st
          rw [hct] at hc
          cases r with
          | error err =>
              simp only [buildTimeSeriesEntries, run_bind, hn, run_req_some, hct] at h
              exact hc h
          | ok ots =>
              cases ots with
              | some j =>
                  simp only [buildTimeSeriesEntries, run_bind, hn, run_req_some,
                    hct, run_modifyF] at h
                  have h2 := ih _ h
                  exact hc h2
              | none =>
                  simp only [buildTimeSeriesEntries, run_bind, hn, run_req_some,
                    hct, run_emit] at h
                  have h2 := ih _ h
                  exact hc (by simpa using h2)

theorem noWarn_css : ∀ (L : List (String × String)) (st : FState),
    Diag.noStateRecordWarning ∈ ((connectSingleSources L st).2).diags →
    Diag.noStateRecordWarning ∈ st.diags := by
  intro L
  induction L with
  | nil => exact fun st h => h
  | cons p rest ih =>
      intro st h
      obtain ⟨d, s⟩ := p
      rw [css_cons_eq] at h
      cases hd : lookupKey d st.timeSeriesList with
      | none =>
          simp only [hd] at h
          have h2 := ih _ h
          simpa using h2
      | some od =>
          cases hs2 : lookupKey s st.timeSeriesList with
          | none =>
              simp only [hd, hs2] at h
              have h2 := ih _ h
              simpa using h2
          | some os =>
              cases od with
              | none =>
                  simp only [hd, hs2] at h
                  exact ih _ h
              | some j =>
                  simp only [hd, hs2] at h
                  have h2 := ih _ h
                  exact h2

theorem noWarn_cmb : ∀ (L : List (Nat × String)) (st : FState),
    Diag.noStateRecordWarning ∈ ((connectMultiplierBases L st).2).diags →
    Diag.noStateRecordWarning ∈ st.diags := by
  intro L
  induction L with
  | nil => exact fun st h => h
  | cons p rest ih =>
      intro st h
      obtain ⟨ts, basisName⟩ := p
      rw [cmb_cons_eq] at h
      cases hl : lookupKey (((lookupKey ts st.tsHeap).map TSObj.name).getD "")
          st.timeSeriesList with
      | none =>
          simp only [hl] at h
          have h2 := ih _ h
          simpa using h2
      | some od =>
          simp only [hl] at h
          have h2 := ih _ h
          exact h2

theorem noWarn_attachAgg : ∀ (l : List (String × ℚ)) (ts : Option Nat)
    (nm : String) (st : FState),
    Diag.noStateRecordWarning ∈ ((attachAggSources ts nm l st).2).diags →
    Diag.noStateRecordWarning ∈ st.diags := by
  intro l
  induction l with
  | nil => exact fun ts nm st h => h
  | cons p rest ih =>
      intro ts nm st h
      obtain ⟨sn, mult⟩ := p
      cases hl : lookupKey sn st.timeSeriesList with
      | none =>
          have h2 := ih ts nm _ (by simpa [attachAggSources, hl] using h)
          simpa using h2
      | some source =>
          cases ts with
          | none =>
              have h2 := ih none nm _ (by simpa [attachAggSources, hl] using h)
              exact h2
          | some t =>
              have h2 := ih (some t) nm _ (by simpa [attachAggSources, hl] using h)
              exact h2

theorem noWarn_cagg : ∀ (L : List (String × List (String × ℚ))) (st : FState),
    Diag.noStateRecordWarning ∈ ((connectAggregators L st).2).diags →
    Diag.noStateRecordWarning ∈ st.diags := by
  intro L
  induction L with
  | nil => exact fun st h => h
  | cons p rest ih =>
      intro st h
      obtain ⟨nm2, al⟩ := p
      cases hl : lookupKey nm2 st.timeSeriesList with
      | none =>
          have h2 := ih _ (by simpa [connectAggregators, hl] using h)
          simpa using h2
      | some ts =>
          rcases haa : attachAggSources ts nm2 al st with ⟨ra, sta⟩
          have h1 := noWarn_attachAgg al ts nm2 st
          rw [haa] at h1
          cases ra with
          | error e2 =>
              simp only [connectAggregators, run_bind, run_get, hl, haa] at h
              exact h1 h
          | ok u =>
              simp only [connectAggregators, run_bind, run_get, hl, haa] at h
              exact h1 (ih sta h)

theorem noWarn_createTimeSeriesList (g : List TSSetting) :
    ∀ st : FState,
      Diag.noStateRecordWarning ∈ ((createTimeSeriesList g st).2).diags →
      Diag.noStateRecordWarning ∈ st.diags := by
  intro st h
  rcases hb : buildTimeSeriesEntries g st with ⟨rb, st1⟩
  have h1 := noWarn_buildTSE g st
  rw [hb] at h1
  cases rb with
  | error e2 =>
      simp only [createTimeSeriesList, run_bind, run_get, hb] at h
      exact h1 h
  | ok u =>
      rcases hc : connectSingleSources st1.timeSeriesSourceList st1 with ⟨rc, stc⟩
      have h2 := noWarn_css st1.timeSeriesSourceList st1
      rw [hc] at h2
      cases rc with
      | error e2 =>
          simp only [createTimeSeriesList, run_bind, run_get, hb, hc] at h
          exact h1 (h2 h)
      | ok u2 =>
          rcases hm : connectMultiplierBases stc.multiplierBasisList stc with ⟨rm, stm⟩
          have h3 := noWarn_cmb stc.multiplierBasisList stc
          rw [hm] at h3
          cases rm with
          | error e2 =>
              simp only [createTimeSeriesList, run_bind, run_get, hb, hc, hm] at h
              exact h1 (h2 (h3 h))
          | ok u3 =>
              rcases hg : connectAggregators stm.aggregationSourceList stm with ⟨rg, stg⟩
              have h4 := noWarn_cagg stm.aggregationSourceList stm
              rw [hg] at h4
              simp only [createTimeSeriesList, run_bind, run_get, hb, hc, hm, hg] at h
              exact h1 (h2 (h3 (h4 h)))

theorem noWarn_applyParameterSetter (fp : ParamKind) (es : ElemSetting)
    (element : Nat) :
    ∀ st : FState,
      Diag.noStateRecordWarning ∈ ((applyParameterSetter fp es element st).2).diags →
      Diag.noStateRecordWarning ∈ st.diags := by
  intro st h
  cases hts : es.timeseries with
  | none => simpa [applyParameterSetter, hts] using h
  | some tsn =>
      cases hl : lookupKey element st.elemHeap with
      | none => simpa [applyParameterSetter, hts, hl] using h
      | some el =>
          by_cases hck : castOk fp el.kind = true
          · simpa [applyParameterSetter, hts, hl, hck] using h
          · simpa [applyParameterSetter, hts, hl, hck] using h

theorem noWarn_configureElementEntries : ∀ (l : List ElemSetting) (element : Nat)
    (nm : String) (st : FState),
    Diag.noStateRecordWarning ∈ ((configureElementEntries element nm l st).2).diags →
    Diag.noStateRecordWarning ∈ st.diags := by
  intro l
  induction l with
  | nil => intro el nm st h; exact h
  | cons es rest ih =>
      intro el nm st h
      cases hmid : es.modelId with
      | none => simpa [configureElementEntries, hmid] using h
      | some mid =>
          by_cases hm2 : rtxStringsAreEqual mid nm = true
          · cases hpar : es.parameter with
            | none => simpa [configureElementEntries, hmid, hm2, hpar] using h
            | some param =>
                cases hps : parameterSetterFor param with
                | none => simpa [configureElementEntries, hmid, hm2, hpar, hps] using h
                | some fp =>
                    cases hts : es.timeseries with
                    | none =>
                        simpa [configureElementEntries, hmid, hm2, hpar, hps, hts] using h
                    | some tsn =>
                        cases hlk : lookupKey tsn st.timeSeriesList with
                        | none =>
                            simpa [configureElementEntries, hmid, hm2, hpar, hps, hts,
                              mapSubscript_missing hlk] using h
                        | some sv =>
                            cases sv with
                            | none =>
                                simpa [configureElementEntries, hmid, hm2, hpar, hps, hts,
                                  mapSubscript_found hlk] using h
                            | some j =>
                                rcases hap : applyParameterSetter fp es el st with ⟨rap, stap⟩
                                have h1 := noWarn_applyParameterSetter fp es el st
                                rw [hap] at h1
                                cases rap with
                                | error e2 =>
                                    simp only [configureElementEntries, hmid, hm2, hpar,
                                      hps, hts, run_bind, run_get, run_set, run_req_some,
                                      run_M_pure, mapSubscript_found hlk, if_true, hap] at h
                                    exact h1 (by simpa using h)
                                | ok u =>
                                    simp only [configureElementEntries, hmid, hm2, hpar,
                                      hps, hts, run_bind, run_get, run_set, run_req_some,
                                      run_M_pure, mapSubscript_found hlk, if_true, hap] at h
                                    have h2 := ih el nm stap (by simpa using h)
                                    exact h1 h2
          · exact ih el nm st (by simpa [configureElementEntries, hmid, hm2] using h)

theorem noWarn_configureElement (element : Nat) :
    ∀ st : FState,
      Diag.noStateRecordWarning ∈ ((configureElement element st).2).diags →
      Diag.noStateRecordWarning ∈ st.diags := by
  intro st h
  cases hl : lookupKey element st.elemHeap with
  | none => simpa [configureElement, hl] using h
  | some e =>
      cases hce : st.configuration.elements with
      | none => simpa [configureElement, hl, hce] using h
      | some elements =>
          exact noWarn_configureElementEntries elements element e.name st
            (by simpa [configureElement, hl, hce] using h)

theorem noWarn_configureElements : ∀ (ids : List Nat) (st : FState),
    Diag.noStateRecordWarning ∈ ((configureElements ids st).2).diags →
    Diag.noStateRecordWarning ∈ st.diags := by
  intro ids
  induction ids with
  | nil => exact fun st h => h
  | cons i rest ih =>
      exact noWarn_bind (noWarn_configureElement i) (fun _ => ih)

theorem allocME_diags : ∀ (l : List ElementObj) (st : FState),
    ((allocModelElements l st).2).diags = st.diags := by
  intro l
  induction l with
  | nil => intro st; rfl
  | cons e rest ih =>
      intro st
      rcases ha : allocModelElements rest
        { st with nextId := st.nextId + 1, elemHeap := mapInsert st.nextId e st.elemHeap }
        with ⟨rt, stt⟩
      have hd := ih { st with nextId := st.nextId + 1, elemHeap := mapInsert st.nextId e st.elemHeap }
      rw [ha] at hd
      simp only [allocModelElements, run_bind, run_allocElem, ha]
      cases rt <;> simpa using hd

theorem noWarn_createModel (g : ModelSetting) (me : List ElementObj) :
    ∀ st : FState,
      Diag.noStateRecordWarning ∈ ((createModel g me st).2).diags →
      Diag.noStateRecordWarning ∈ st.diags :=
  noWarn_bind (noWarn_req g.type "type") (fun mt =>
    noWarn_bind (noWarn_req g.file "file") (fun mf =>
      noWarn_bind (fun st h => h) (fun st1 => by
        intro st0 h
        by_cases he1 : rtxStringsAreEqual mt "epanet" = true
        · rcases ha : allocModelElements me st0 with ⟨ra, sta⟩
          have hda := allocME_diags me st0
          rw [ha] at hda
          cases ra with
          | error e2 =>
              simp only [he1, if_true, run_bind, ha] at h
              rw [hda] at h
              exact h
          | ok ids =>
              rcases hc : configureElements ids
                  { sta with model := some { kind := "epanet", sourceFile := pathJoin (parentPath st1.configPath) mf, elements := ids } }
                with ⟨rc, stc⟩
              have hnc := noWarn_configureElements ids
                { sta with model := some { kind := "epanet", sourceFile := pathJoin (parentPath st1.configPath) mf, elements := ids } }
              rw [hc] at hnc
              cases rc with
              | error e2 =>
                  simp only [he1, if_true, run_bind, ha, run_modifyF, hc] at h
                  have h2 := hnc h
                  rw [← hda]
                  exact h2
              | ok u =>
                  simp only [he1, if_true, run_bind, ha, run_modifyF, hc] at h
                  by_cases he2 : rtxStringsAreEqual mt "synthetic_epanet" = true
                  · rcases ha2 : allocModelElements me stc with ⟨ra2, sta2⟩
                    have hda2 := allocME_diags me stc
                    rw [ha2] at hda2
                    cases ra2 with
                    | error e3 =>
                        simp only [he2, if_true, run_bind, ha2] at h
                        rw [hda2] at h
                        rw [← hda]
                        exact hnc h
                    | ok ids2 =>
                        rcases hc2 : configureElements ids2
                            { sta2 with model := some { kind := "synthetic_epanet", sourceFile := pathJoin (parentPath st1.configPath) mf, elements := ids2 } }
                          with ⟨rc2, stc2⟩
                        have hnc2 := noWarn_configureElements ids2
                          { sta2 with model := some { kind := "synthetic_epanet", sourceFile := pathJoin (parentPath st1.configPath) mf, elements := ids2 } }
                        rw [hc2] at hnc2
                        simp only [he2, if_true, run_bind, ha2, run_modifyF, hc2] at h
                        cases rc2 with
                        | error e3 =>
                            have h2 := hnc2 h
                            rw [hda2] at h2
                            rw [← hda]
                            exact hnc h2
                        | ok u2 =>
                            have h2 := hnc2 h
                            rw [hda2] at h2
                            rw [← hda]
                            exact hnc h2
                  · simp only [he2, if_false, run_M_pure] at h
                    have h2 := hnc h
                    rw [← hda]
                    exact h2
        · by_cases he2 : rtxStringsAreEqual mt "synthetic_epanet" = true
          · rcases ha2 : allocModelElements me st0 with ⟨ra2, sta2⟩
            have hda2 := allocME_diags me st0
            rw [ha2] at hda2
            cases ra2 with
            | error e3 =>
                simp only [eq_false he1, if_false, run_bind, run_M_pure, he2, if_true, ha2] at h
                simp only at hda2
                rw [hda2] at h
                exact h
            | ok ids2 =>
                rcases hc2 : configureElements ids2
                    { sta2 with model := some { kind := "synthetic_epanet", sourceFile := pathJoin (parentPath st1.configPath) mf, elements := ids2 } }
                  with ⟨rc2, stc2⟩
                have hnc2 := noWarn_configureElements ids2
                  { sta2 with model := some { kind := "synthetic_epanet", sourceFile := pathJoin (parentPath st1.configPath) mf, elements := ids2 } }
                rw [hc2] at hnc2
                simp only [eq_false he1, if_false, run_bind, run_M_pure, he2, if_true, ha2,
                  run_modifyF, hc2] at h
                simp only at hnc2 hda2
                cases rc2 with
                | error e3 =>
                    have h2 := hnc2 h
                    rw [hda2] at h2
                    exact h2
                | ok u2 =>
                    have h2 := hnc2 h
                    rw [hda2] at h2
                    exact h2
          · simp only [he1, if_false, run_bind, run_M_pure, he2, if_false] at h
            exact h)))

/-- `createSaveOptions` emits the persistence warning exactly when the save
group has no `staterecord` member. -/
theorem cso_warn_iff (sg : SaveSetting) (st : FState) :
    Diag.noStateRecordWarning ∈ ((createSaveOptions sg st).2).diags ↔
      (Diag.noStateRecordWarning ∈ st.diags ∨ sg.staterecord = none) := by
  cases hsr : sg.staterecord with
  | none => simp [createSaveOptions, hsr]
  | some nm =>
      cases hlk : lookupKey nm st.pointRecordList with
      | none =>
          cases hss : sg.saveStates with
          | none => simp [createSaveOptions, hsr, hlk, hss]
          | some ss =>
              cases ss with
              | list states => simp [createSaveOptions, hsr, hlk, hss, ass_diags]
              | nonList => simp [createSaveOptions, hsr, hlk, hss]
      | some rv =>
          cases hss : sg.saveStates with
          | none => simp [createSaveOptions, hsr, hlk, hss]
          | some ss =>
              cases ss with
              | list states => simp [createSaveOptions, hsr, hlk, hss, ass_diags]
              | nonList => simp [createSaveOptions, hsr, hlk, hss]

/-- A sectioned stage of `loadConfigFile`: an absent section is skipped, a
present one is processed, and control continues either way. -/
theorem noWarn_stage {γ β : Type} (v : Option γ) (F : γ → M Unit) (k : Unit → M β)
    (hF : ∀ (g : γ) (st : FState), Diag.noStateRecordWarning ∈ (((F g) st).2).diags →
      Diag.noStateRecordWarning ∈ st.diags)
    (hk : ∀ (u : Unit) (st : FState), Diag.noStateRecordWarning ∈ (((k u) st).2).diags →
      Diag.noStateRecordWarning ∈ st.diags) :
    ∀ st : FState,
      Diag.noStateRecordWarning ∈
        (((match v with | some g => F g >>= k | none => M.pure () >>= k) : M β) st).2.diags →
      Diag.noStateRecordWarning ∈ st.diags := by
  cases v with
  | none => exact noWarn_bind (fun st h => h) hk
  | some g => exact noWarn_bind (hF g) hk

/-- A load of a document with no `save` section can never print the
persistence warning: no other stage of `loadConfigFile` emits it. -/
theorem noWarn_loadConfigFile (p : String) (doc : ConfigDoc) (me : List ElementObj)
    (hsave : doc.save = none) :
    ∀ st : FState,
      Diag.noStateRecordWarning ∈ ((loadConfigFile p doc me st).2).diags →
      Diag.noStateRecordWarning ∈ st.diags := by
  refine noWarn_bind (fun st h => h) (fun _ => ?_)
  refine noWarn_bind (noWarn_req doc.version "version") (fun _version => ?_)
  cases doc.records <;>
    first
      | refine noWarn_bind (fun st h => h) (fun _ => ?_)
      | refine noWarn_bind (noWarn_createPointRecords _) (fun _ => ?_)
  all_goals
    cases doc.clocks <;>
      first
        | refine noWarn_bind (fun st h => h) (fun _ => ?_)
        | refine noWarn_bind (noWarn_createClocks _) (fun _ => ?_)
  all_goals
    cases doc.timeseries <;>
      first
        | refine noWarn_bind (fun st h => h) (fun _ => ?_)
        | refine noWarn_bind (noWarn_createTimeSeriesList _) (fun _ => ?_)
  all_goals
    cases doc.model <;>
      first
        | refine noWarn_bind (fun st h => h) (fun _ => ?_)
        | refine noWarn_bind (noWarn_createModel _ me) (fun _ => ?_)
  all_goals
    cases doc.simulation <;>
      first
        | refine noWarn_bind (fun st h => h) (fun _ => ?_)
        | refine noWarn_bind (noWarn_createSimulationDefaults _) (fun _ => ?_)
  all_goals
    cases doc.zones <;>
      first
        | refine noWarn_bind (fun st h => h) (fun _ => ?_)
        | refine noWarn_bind (noWarn_createZones _) (fun _ => ?_)
  all_goals
    intro st h
  all_goals
    rw [hsave] at h
  all_goals
    exact h

/-- C6 (amended): absence of the `save` section is *silent*.  The "model
results will not be persisted" warning is emitted by `createSaveOptions`
exactly when a save group is present whose `staterecord` member is missing
(first conjunct); when the document has no `save` section at all,
`createSaveOptions` never runs and no stage of `loadConfigFile` can
introduce the warning (second conjunct).  The original claim — that a
document *without* a persistence section gets the warning — is refuted by
`c6_counterexample`. -/
theorem c6_warning_requires_save_section :
    (∀ (sg : SaveSetting) (st : FState),
      Diag.noStateRecordWarning ∈ ((ConfigFactory.createSaveOptions sg st).2).diags ↔
        (Diag.noStateRecordWarning ∈ st.diags ∨ sg.staterecord = none)) ∧
    (∀ (p : String) (doc : ConfigDoc) (me : List ElementObj) (st : FState),
      doc.save = none → NoWarn st →
      NoWarn ((ConfigFactory.loadConfigFile p doc me st).2)) := by
  constructor
  · exact cso_warn_iff
  · intro p doc me st hsave hnw hmem
    exact hnw (noWarn_loadConfigFile p doc me hsave st hmem)

theorem c6_witness :
    (({ version := some "1.0" } : ConfigDoc).save = none ∧ NoWarn FState.init) ∧
    NoWarn ((ConfigFactory.loadConfigFile "config.cfg" { version := some "1.0" } []
      FState.init).2) ∧
    (Diag.noStateRecordWarning ∈
        ((ConfigFactory.createSaveOptions ({ } : SaveSetting) FState.init).2).diags ↔
      (Diag.noStateRecordWarning ∈ FState.init.diags ∨
        ({ } : SaveSetting).staterecord = none)) :=
  ⟨⟨rfl, show Diag.noStateRecordWarning ∉ FState.init.diags by decide⟩,
   c6_warning_requires_save_section.2 "config.cfg" { version := some "1.0" } []
     FState.init rfl (show Diag.noStateRecordWarning ∉ FState.init.diags by decide),
   c6_warning_requires_save_section.1 { } FState.init⟩

end WarningProvenance

end RTX
